import Mathlib

/-!
Shallow embedding of the `msg_tracker` package and the worker/sink message-ID
machinery of the otel-loadgen repository, together with theorems settling the
specification claims about them.

Go `uint64`/`uint` values are modelled as `Nat` with explicit `% 2^64`
wraparound at the places where the Go arithmetic can overflow.  Go maps are
modelled as association lists (first binding for a key wins, assignment
replaces the first binding or appends).  Go panics are modelled by returning
`Except.error`; normal returns are `Except.ok`.  `time.Time` is modelled as a
`Nat` whose zero value is the `IsZero` sentinel and whose order is `Before`.
-/

namespace OtelLoadgen

def U64 : Nat := 2 ^ 64

/-- Association-list model of a Go map read `m[k]`: first binding wins. -/
def alookup {κ β : Type} [DecidableEq κ] (k : κ) : List (κ × β) → Option β
  | [] => none
  | (k', v) :: rest => if k' = k then some v else alookup k rest

/-- Association-list model of a Go map write `m[k] = v`: replace the first
binding for `k`, or append a new binding. -/
def aset {κ β : Type} [DecidableEq κ] (k : κ) (v : β) : List (κ × β) → List (κ × β)
  | [] => [(k, v)]
  | (k', v') :: rest => if k' = k then (k, v) :: rest else (k', v') :: aset k v rest

namespace MsgTracker

/-- `MessageRange` from `msg_tracker/tracker.go`: a range of message IDs with a
bitmask for tracking acknowledgments.  The bitmap is a list of 64-bit words. -/
structure MessageRange where
  StartID : Nat
  RangeLen : Nat
  Timestamp : Nat
  AckedCount : Nat
  DuplicateCount : Nat
  bitmap : List Nat
deriving DecidableEq, Repr

/-- `AckedResult` from `tracker.go`. -/
structure AckedResult where
  Dup : Bool
  Acked : Bool
deriving DecidableEq, Repr

/-- `NewMessageRange(startID, rangeLen)`: panics when `rangeLen == 0`,
otherwise allocates `(rangeLen + 63) / 64` zero words of bitmap. -/
def NewMessageRange (startID rangeLen : Nat) : Except String MessageRange :=
  if rangeLen = 0 then
    Except.error "range length must be > 0"
  else
    Except.ok
      { StartID := startID
        RangeLen := rangeLen
        Timestamp := 0
        AckedCount := 0
        DuplicateCount := 0
        bitmap := List.replicate ((rangeLen + 63) / 64) 0 }

/-- `(*MessageRange).contains(msgID)`: `msgID >= StartID && msgID < StartID +
uint64(RangeLen)`, with the Go `uint64` addition wrapping at `2^64`. -/
def MessageRange.contains (mr : MessageRange) (msgID : Nat) : Bool :=
  decide (mr.StartID ≤ msgID ∧ msgID < (mr.StartID + mr.RangeLen) % U64)

/-- `(*MessageRange).Ack(msgID)`: out of range returns the zero result and
`false` with no state change; otherwise sets bit `offset % 64` of word
`offset / 64` (panicking, as Go would, if that word is out of bitmap bounds)
and bumps `DuplicateCount` or `AckedCount` according to the previous bit. -/
def MessageRange.Ack (mr : MessageRange) (msgID : Nat) :
    Except String (AckedResult × Bool × MessageRange) :=
  if mr.contains msgID then
    let offset := msgID - mr.StartID
    let idx := offset / 64
    let bit := offset % 64
    match mr.bitmap.get? idx with
    | none => Except.error "runtime error: index out of range"
    | some w =>
      let wasAlreadyAcked : Bool := decide (w &&& (1 <<< bit) ≠ 0)
      let mr' := { mr with bitmap := mr.bitmap.set idx (w ||| (1 <<< bit)) }
      if wasAlreadyAcked then
        Except.ok (⟨true, false⟩, true,
          { mr' with DuplicateCount := mr'.DuplicateCount + 1 })
      else
        Except.ok (⟨false, true⟩, true,
          { mr' with AckedCount := mr'.AckedCount + 1 })
  else
    Except.ok (⟨false, false⟩, false, mr)

/-- `(*MessageRange).IsAcked(msgID)`: `false` out of range, otherwise tests the
bit (panicking if the word index is out of bitmap bounds). -/
def MessageRange.IsAcked (mr : MessageRange) (msgID : Nat) : Except String Bool :=
  if mr.contains msgID then
    let offset := msgID - mr.StartID
    match mr.bitmap.get? (offset / 64) with
    | none => Except.error "runtime error: index out of range"
    | some w => Except.ok (decide (w &&& (1 <<< (offset % 64)) ≠ 0))
  else
    Except.ok false

/-- `(*MessageRange).TotalAckedCount()`. -/
def MessageRange.TotalAckedCount (mr : MessageRange) : Nat :=
  mr.AckedCount

/-- `(*MessageRange).UpdateTimestamp(timestamp)`. -/
def MessageRange.UpdateTimestamp (mr : MessageRange) (timestamp : Nat) : MessageRange :=
  { mr with Timestamp := timestamp }

/-- `generatorTracker` from `tracker.go`: ranges keyed by start ID plus the
two cumulative atomic counters. -/
structure generatorTracker where
  totalAcked : Nat
  totalDuped : Nat
  ranges : List (Nat × MessageRange)
deriving DecidableEq, Repr

/-- `newGeneratorTracker()`. -/
def newGeneratorTracker : generatorTracker :=
  { totalAcked := 0, totalDuped := 0, ranges := [] }

/-- `(*generatorTracker).findRange(startRangeID)`: plain map lookup. -/
def generatorTracker.findRange (gt : generatorTracker) (startRangeID : Nat) :
    Option MessageRange :=
  alookup startRangeID gt.ranges

/-- `(*generatorTracker).addRange(startID, rangeLen)`: return the existing
range, or create (possibly panicking on `rangeLen = 0`) and store a new one.
Returns the range together with the updated tracker. -/
def generatorTracker.addRange (gt : generatorTracker) (startID rangeLen : Nat) :
    Except String (MessageRange × generatorTracker) :=
  match alookup startID gt.ranges with
  | some r => Except.ok (r, gt)
  | none =>
    (NewMessageRange startID rangeLen).map fun r =>
      (r, { gt with ranges := aset startID r gt.ranges })

/-- `(*generatorTracker).addRangeWithTimestamp(startID, rangeLen, timestamp)`:
update the timestamp of an existing range, or create a new range carrying the
timestamp. -/
def generatorTracker.addRangeWithTimestamp (gt : generatorTracker)
    (startID rangeLen timestamp : Nat) : Except String generatorTracker :=
  match alookup startID gt.ranges with
  | some r =>
    Except.ok { gt with ranges := aset startID (r.UpdateTimestamp timestamp) gt.ranges }
  | none =>
    (NewMessageRange startID rangeLen).map fun r =>
      { gt with ranges := aset startID { r with Timestamp := timestamp } gt.ranges }

/-- `(*generatorTracker).ackedCount()`: sum of `TotalAckedCount` over ranges. -/
def generatorTracker.ackedCount (gt : generatorTracker) : Nat :=
  (gt.ranges.map fun p => p.2.TotalAckedCount).sum

/-- `Tracker` from `tracker.go`: generator trackers keyed by generator ID. -/
structure Tracker where
  generators : List (String × generatorTracker)
deriving DecidableEq, Repr

/-- `NewTracker(...)`: empty generator map. -/
def NewTracker : Tracker :=
  { generators := [] }

/-- Read the generator tracker for `generatorID`, or the freshly created one
that `Tracker.Ack` / `Tracker.AddRange` would insert under the write lock. -/
def Tracker.getOrNewGenerator (t : Tracker) (generatorID : String) : generatorTracker :=
  (alookup generatorID t.generators).getD newGeneratorTracker

/-- Counter update at the end of `Tracker.Ack`: on success, a duplicate bumps
`totalDuped` and a fresh ack bumps `totalAcked`. -/
def ackCounters (result : AckedResult) (success : Bool) (gt : generatorTracker) :
    generatorTracker :=
  if success then
    if result.Dup then { gt with totalDuped := gt.totalDuped + 1 }
    else if result.Acked then { gt with totalAcked := gt.totalAcked + 1 }
    else gt
  else gt

/-- `(*Tracker).Ack(generatorID, startRangeID, rangeLen, msgID)`: find or
create the generator tracker and the range, ack the message, and on success
bump the matching cumulative counter. -/
def Tracker.Ack (t : Tracker) (generatorID : String) (startRangeID rangeLen msgID : Nat) :
    Except String (Bool × Tracker) := do
  let gt := t.getOrNewGenerator generatorID
  let (r, gt) ← gt.addRange startRangeID rangeLen
  let (result, success, r') ← r.Ack msgID
  let gt := { gt with ranges := aset startRangeID r' gt.ranges }
  let gt := ackCounters result success gt
  Except.ok (success, { generators := aset generatorID gt t.generators })

/-- `(*Tracker).AddRange(generatorID, startRangeID, rangeLen, timestamp)`:
find or create the generator tracker and add the range with the timestamp, or
update the timestamp if the range exists. -/
def Tracker.AddRange (t : Tracker) (generatorID : String)
    (startRangeID rangeLen timestamp : Nat) : Except String Tracker := do
  let gt := t.getOrNewGenerator generatorID
  let gt ← gt.addRangeWithTimestamp startRangeID rangeLen timestamp
  Except.ok { generators := aset generatorID gt t.generators }

/-- `(*Tracker).UpdateRange(generatorID, startRangeID, rangeLen)`: warn (the
`Bool` component) and no-op on an unknown generator or range, otherwise set
the range's `RangeLen` to the new value unconditionally. -/
def Tracker.UpdateRange (t : Tracker) (generatorID : String)
    (startRangeID rangeLen : Nat) : Bool × Tracker :=
  match alookup generatorID t.generators with
  | none => (true, t)
  | some gt =>
    match alookup startRangeID gt.ranges with
    | none => (true, t)
    | some r =>
      let gt := { gt with ranges := aset startRangeID { r with RangeLen := rangeLen } gt.ranges }
      (false, { generators := aset generatorID gt t.generators })

/-- `(*Tracker).IsAcked(generatorID, startRangeID, rangeLen, msgID)`: `false`
when the generator or range is unknown, otherwise delegate to the range.  The
`rangeLen` argument is never read. -/
def Tracker.IsAcked (t : Tracker) (generatorID : String)
    (startRangeID _rangeLen msgID : Nat) : Except String Bool :=
  match alookup generatorID t.generators with
  | none => Except.ok false
  | some gt =>
    match alookup startRangeID gt.ranges with
    | none => Except.ok false
    | some r => r.IsAcked msgID

/-- `(*Tracker).AckedCount()`: per-generator sum of unique acks, omitting
generators whose sum is zero. -/
def Tracker.AckedCount (t : Tracker) : List (String × Nat) :=
  t.generators.foldr
    (fun p acc => if p.2.ackedCount > 0 then (p.1, p.2.ackedCount) :: acc else acc) []

/-- One sequential invocation of a public `Tracker` operation, mutating or
querying as the source does. -/
inductive TrackerOp where
  | ack (generatorID : String) (startRangeID rangeLen msgID : Nat)
  | addRange (generatorID : String) (startRangeID rangeLen timestamp : Nat)
  | updateRange (generatorID : String) (startRangeID rangeLen : Nat)
  | isAcked (generatorID : String) (startRangeID rangeLen msgID : Nat)
  | ackedCount
  | generatorReport (timestamp : Nat)
deriving DecidableEq, Repr

/-- Apply one operation to the tracker state; queries leave it unchanged. -/
def Tracker.step (t : Tracker) : TrackerOp → Except String Tracker
  | .ack g s l m => (t.Ack g s l m).map Prod.snd
  | .addRange g s l ts => t.AddRange g s l ts
  | .updateRange g s l => Except.ok (t.UpdateRange g s l).2
  | .isAcked g s l m => (t.IsAcked g s l m).map fun _ => t
  | .ackedCount => Except.ok t
  | .generatorReport _ => Except.ok t

/-- Well-formedness of a range: its bitmap covers `RangeLen` bits and
`StartID` and `RangeLen` are representable as Go `uint64`/`uint` values.
`NewMessageRange` establishes it (for representable arguments) and every
operation except a range-growing `UpdateRange` preserves it. -/
def MessageRange.WF (mr : MessageRange) : Prop :=
  mr.RangeLen ≤ 64 * mr.bitmap.length ∧ mr.RangeLen < U64 ∧ mr.StartID < U64

instance (mr : MessageRange) : Decidable mr.WF := by
  unfold MessageRange.WF
  infer_instance

/-- Run a sequence of operations from a starting state. -/
def Tracker.run (t : Tracker) : List TrackerOp → Except String Tracker
  | [] => Except.ok t
  | op :: ops => (t.step op).bind fun t' => t'.run ops

/-- State observer: the stored range for `(generatorID, startRangeID)`. -/
def Tracker.rangeOf (t : Tracker) (generatorID : String) (startRangeID : Nat) :
    Option MessageRange :=
  (alookup generatorID t.generators).bind fun gt => alookup startRangeID gt.ranges

/-- Well-formedness of a whole tracker state: every stored range is
well-formed. -/
def Tracker.WF (t : Tracker) : Prop :=
  ∀ p ∈ t.generators, ∀ q ∈ p.2.ranges, q.2.WF

/-- Per-generator counter coherence: the sum of `AckedCount` over the
generator's ranges equals its cumulative `totalAcked`, and likewise for
duplicates. -/
def generatorTracker.Coherent (gt : generatorTracker) : Prop :=
  ((gt.ranges.map fun q => q.2.AckedCount).sum = gt.totalAcked) ∧
  ((gt.ranges.map fun q => q.2.DuplicateCount).sum = gt.totalDuped)

/-- Counter coherence of every generator of a tracker state. -/
def CountersInv (t : Tracker) : Prop :=
  ∀ p ∈ t.generators, p.2.Coherent

/-- Specification-side contract of `MessageRange.Ack`, written from the spec's
words: out of the half-open interval `[start_id, start_id + range_len)` the
ack reports out-of-range and changes nothing; inside it sets the bit at offset
`msg_id - start_id`, incrementing `acked_count` if the bit was clear and
`duplicate_count` if it was already set. -/
def MessageRange.ackSpec (mr : MessageRange) (msgID : Nat) :
    AckedResult × Bool × MessageRange :=
  if msgID < mr.StartID ∨ mr.StartID + mr.RangeLen ≤ msgID then
    (⟨false, false⟩, false, mr)
  else
    let offset := msgID - mr.StartID
    let w := mr.bitmap.getD (offset / 64) 0
    if w.testBit (offset % 64) then
      (⟨true, false⟩, true,
        { mr with
          bitmap := mr.bitmap.set (offset / 64) (w ||| (1 <<< (offset % 64)))
          DuplicateCount := mr.DuplicateCount + 1 })
    else
      (⟨false, true⟩, true,
        { mr with
          bitmap := mr.bitmap.set (offset / 64) (w ||| (1 <<< (offset % 64)))
          AckedCount := mr.AckedCount + 1 })

/-- Iterate `MessageRange.Ack` with one fixed message ID. -/
def MessageRange.ackN (mr : MessageRange) (msgID : Nat) : Nat → Except String MessageRange
  | 0 => Except.ok mr
  | n + 1 => (mr.Ack msgID).bind fun p => MessageRange.ackN p.2.2 msgID n

end MsgTracker

namespace Worker

/-- `ALLOC_SIZE` from `worker/msg_ids.go`. -/
def ALLOC_SIZE : Nat := 1000

/-- `control.MessageRange` from `control/types.go`, as posted on the control
channel by `nextRange`. -/
structure ControlMessageRange where
  GeneratorID : String
  StartID : Nat
  RangeLen : Nat
  Timestamp : Nat
deriving DecidableEq, Repr

/-- `msgIdRange` from `worker/msg_ids.go`. -/
structure msgIdRange where
  startId : Nat
  len : Nat
  used : Nat
  timestamp : Nat
deriving DecidableEq, Repr

/-- `MsgID` from `worker/msg_ids.go`: the identity triple carried on spans. -/
structure MsgID where
  StartID : Nat
  Len : Nat
  ID : Nat
deriving DecidableEq, Repr

/-- `MsgIdGenerator` from `worker/msg_ids.go`.  The control channel is
modelled by returning emitted messages instead of sending them. -/
structure MsgIdGenerator where
  generatorId : String
  nextStartId : Nat
  currRange : Option msgIdRange
deriving DecidableEq, Repr

/-- `NewMsgIdGenerator(generatorId, ctrlChan)`: `nextStartId` starts at 1. -/
def NewMsgIdGenerator (generatorId : String) : MsgIdGenerator :=
  { generatorId := generatorId, nextStartId := 1, currRange := none }

/-- `(*msgIdRange).isFull()`: `used >= len`. -/
def msgIdRange.isFull (r : msgIdRange) : Bool :=
  decide (r.len ≤ r.used)

/-- `(*msgIdRange).nextId()`: panics on a full range, otherwise returns
`startId + used` (Go `uint64` addition) and increments `used`. -/
def msgIdRange.nextId (r : msgIdRange) : Except String (MsgID × msgIdRange) :=
  if r.isFull then
    Except.error "nextId called on full range"
  else
    Except.ok
      ({ StartID := r.startId, Len := r.len, ID := (r.startId + r.used) % U64 },
        { r with used := r.used + 1 })

/-- `(*MsgIdGenerator).nextRange(len)`: allocate a fresh range at
`nextStartId` with the current time, advance `nextStartId` by `len` (Go
`uint64` addition), and emit the control-plane announcement. -/
def MsgIdGenerator.nextRange (g : MsgIdGenerator) (len now : Nat) :
    msgIdRange × MsgIdGenerator × ControlMessageRange :=
  let mid : msgIdRange := { startId := g.nextStartId, len := len, used := 0, timestamp := now }
  (mid, { g with nextStartId := (g.nextStartId + len) % U64 },
    { GeneratorID := g.generatorId
      StartID := mid.startId
      RangeLen := mid.len
      Timestamp := mid.timestamp })

/-- `(*MsgIdGenerator).nextId()`: replace the current range by a fresh
`ALLOC_SIZE` one when absent or full, then consume one ID from it.  `now` is
the wall-clock value `time.Now()` would observe on an allocation. -/
def MsgIdGenerator.nextId (g : MsgIdGenerator) (now : Nat) :
    Except String (MsgID × MsgIdGenerator × Option ControlMessageRange) :=
  let needNew : Bool :=
    match g.currRange with
    | none => true
    | some r => r.isFull
  let refreshed :=
    if needNew then
      let alloc := g.nextRange ALLOC_SIZE now
      ({ alloc.2.1 with currRange := some alloc.1 }, some alloc.2.2)
    else (g, none)
  match refreshed.1.currRange with
  | none => Except.error "invalid memory address or nil pointer dereference"
  | some r =>
    (r.nextId).map fun p =>
      (p.1, { refreshed.1 with currRange := some p.2 }, refreshed.2)

/-- Iterate `nextId`: `nextIdIter g times k` is the result of the `(k+1)`-th
call, where `times j` is the clock value at the `(j+1)`-th call. -/
def MsgIdGenerator.nextIdIter (g : MsgIdGenerator) (times : Nat → Nat) :
    Nat → Except String (MsgID × MsgIdGenerator)
  | 0 => (g.nextId (times 0)).map fun p => (p.1, p.2.1)
  | k + 1 =>
    (MsgIdGenerator.nextIdIter g times k).bind fun p =>
      (p.2.nextId (times (k + 1))).map fun q => (q.1, q.2.1)

/-- OTLP `AnyValue` restricted to the cases the extraction code
distinguishes: string values, integer values, and everything else. -/
inductive AnyValue where
  | str (s : String)
  | int (i : Int)
  | other
deriving DecidableEq, Repr

/-- OTLP `KeyValue`; `value` is `none` when the Go pointer is nil. -/
structure KeyValue where
  key : String
  value : Option AnyValue
deriving DecidableEq, Repr

/-- Modelled from the spec: the source file defining the fixed attribute-key
constants is not under `src/`; per the spec they are fixed, pairwise distinct
strings (`RES_ATTR_GENERATOR_ID` on resources, the three `ELEM_ATTR_*` keys on
spans).  Their exact spelling is irrelevant to the claims. -/
def RES_ATTR_GENERATOR_ID : String := "loadgen.generator_id"

/-- Modelled from the spec: fixed span attribute key for the range start. -/
def ELEM_ATTR_START_RANGE : String := "loadgen.start_range"

/-- Modelled from the spec: fixed span attribute key for the range length. -/
def ELEM_ATTR_RANGE_LEN : String := "loadgen.range_len"

/-- Modelled from the spec: fixed span attribute key for the message ID. -/
def ELEM_ATTR_MESSAGE_ID : String := "loadgen.message_id"

/-- `ExtractGeneratorId(attrs)`: first attribute with the generator-ID key and
a non-nil value decides the result — its string value, or `""` when it is not
a string.  Nil-valued matches are skipped. -/
def ExtractGeneratorId : List KeyValue → String
  | [] => ""
  | attr :: rest =>
    if attr.key = RES_ATTR_GENERATOR_ID then
      match attr.value with
      | some (.str s) => s
      | some _ => ""
      | none => ExtractGeneratorId rest
    else ExtractGeneratorId rest

/-- `getIntValue(value)`: the integer payload, if the value is non-nil and
integer-typed. -/
def getIntValue : Option AnyValue → Option Int
  | some (.int i) => some i
  | _ => none

/-- Go conversion `uint64(i)` / `uint(i)` of an `int64`: two's-complement
wraparound into `[0, 2^64)`. -/
def toUint64 (i : Int) : Nat :=
  (i % ((U64 : Nat) : Int)).toNat

/-- Loop body of `ExtractMsgIdParams`: walk the attributes, recording each of
the three message-ID keys, returning early with `false` on a matching key
whose value is not an integer, and breaking once all three are present. -/
def extractMsgIdLoop : List KeyValue → MsgID → Bool → Bool → Bool → MsgID × Bool
  | [], m, hS, hL, hI => (m, hI && hL && hS)
  | attr :: rest, m, hS, hL, hI =>
    if attr.key = ELEM_ATTR_START_RANGE then
      match getIntValue attr.value with
      | none => (m, false)
      | some v =>
        let m := { m with StartID := toUint64 v }
        if hI && hL && true then (m, true) else extractMsgIdLoop rest m true hL hI
    else if attr.key = ELEM_ATTR_RANGE_LEN then
      match getIntValue attr.value with
      | none => (m, false)
      | some v =>
        let m := { m with Len := toUint64 v }
        if hI && true && hS then (m, true) else extractMsgIdLoop rest m hS true hI
    else if attr.key = ELEM_ATTR_MESSAGE_ID then
      match getIntValue attr.value with
      | none => (m, false)
      | some v =>
        let m := { m with ID := toUint64 v }
        if true && hL && hS then (m, true) else extractMsgIdLoop rest m hS hL true
    else
      if hI && hL && hS then (m, true) else extractMsgIdLoop rest m hS hL hI

/-- `ExtractMsgIdParams(attrs)`: the extracted triple and whether all three
message-ID attributes were present with integer values. -/
def ExtractMsgIdParams (attrs : List KeyValue) : MsgID × Bool :=
  extractMsgIdLoop attrs { StartID := 0, Len := 0, ID := 0 } false false false

/-- Number of attributes with a given key. -/
def keyCount (attrs : List KeyValue) (key : String) : Nat :=
  attrs.countP fun a => decide (a.key = key)

/-- Whether some attribute has the given key. -/
def hasKey (attrs : List KeyValue) (key : String) : Bool :=
  attrs.any fun a => decide (a.key = key)

/-- The first attribute with the given key. -/
def findKey (attrs : List KeyValue) (key : String) : Option KeyValue :=
  attrs.find? fun a => decide (a.key = key)

/-- Spec-side reading of one integer-valued span attribute: the value of the
first attribute with the given key, when integer-typed. -/
def attrInt (attrs : List KeyValue) (key : String) : Option Int :=
  (findKey attrs key).bind fun a => getIntValue a.value

end Worker

namespace Sink

open Worker

/-- OTLP `Span`, restricted to the attributes the sink reads. -/
structure Span where
  attributes : List KeyValue
deriving DecidableEq, Repr

/-- OTLP `ScopeSpans`. -/
structure ScopeSpans where
  spans : List Span
deriving DecidableEq, Repr

/-- OTLP `Resource`, restricted to its attributes. -/
structure Resource where
  attributes : List KeyValue
deriving DecidableEq, Repr

/-- OTLP `ResourceSpans`; `resource` is `none` when the Go pointer is nil. -/
structure ResourceSpans where
  resource : Option Resource
  scopeSpans : List ScopeSpans
deriving DecidableEq, Repr

/-- OTLP `ExportTraceServiceRequest`. -/
structure ExportTraceServiceRequest where
  resourceSpans : List ResourceSpans
deriving DecidableEq, Repr

/-- OTLP `ExportTraceServiceResponse`: the sink always returns the empty
response (no partial success). -/
structure ExportTraceServiceResponse where
deriving DecidableEq, Repr

/-- `otlpTracesRPCService.Export` from `sink/rpc.go`: walk resource spans,
skip nil resources and resources without a generator ID, extract the identity
triple from each span, and ack the valid ones.  The tracker side effect is
modelled as the list of `Tracker.Ack` invocations, in order. -/
def Export (request : ExportTraceServiceRequest) :
    List (String × MsgID) × ExportTraceServiceResponse :=
  (request.resourceSpans.flatMap fun rs =>
    match rs.resource with
    | none => []
    | some res =>
      let genID := ExtractGeneratorId res.attributes
      if genID = "" then []
      else
        rs.scopeSpans.flatMap fun ss =>
          ss.spans.filterMap fun span =>
            let e := ExtractMsgIdParams span.attributes
            if e.2 then some (genID, e.1) else none,
    {})

/-- Spec-side typedness of a span's message-ID attributes: every attribute
carrying one of the three message-ID keys has an integer-typed value. -/
def Span.msgAttrsTyped (span : Span) : Bool :=
  span.attributes.all fun a =>
    !(decide (a.key = ELEM_ATTR_START_RANGE ∨ a.key = ELEM_ATTR_RANGE_LEN ∨
      a.key = ELEM_ATTR_MESSAGE_ID)) || (getIntValue a.value).isSome

/-- Spec-side qualification of a span: all three message-ID keys present and
every message-ID attribute integer-typed (a span carrying a missing or
wrong-typed message-ID attribute does not qualify). -/
def Span.hasMsgIdTriple (span : Span) : Bool :=
  span.msgAttrsTyped &&
  (hasKey span.attributes ELEM_ATTR_START_RANGE &&
   hasKey span.attributes ELEM_ATTR_RANGE_LEN &&
   hasKey span.attributes ELEM_ATTR_MESSAGE_ID)

/-- Spec-side identity triple of a qualifying span (absent components default
to 0, as in the extraction's zero value). -/
def Span.specMsgId (span : Span) : MsgID :=
  { StartID := ((attrInt span.attributes ELEM_ATTR_START_RANGE).map toUint64).getD 0
    Len := ((attrInt span.attributes ELEM_ATTR_RANGE_LEN).map toUint64).getD 0
    ID := ((attrInt span.attributes ELEM_ATTR_MESSAGE_ID).map toUint64).getD 0 }

/-- Spec-side generator identity of a resource: the string value of its
generator-ID attribute, or `""` when absent or not a string. -/
def Resource.specGenId (res : Resource) : String :=
  match findKey res.attributes RES_ATTR_GENERATOR_ID with
  | some a =>
    match a.value with
    | some (.str s) => s
    | _ => ""
  | none => ""

/-- Well-formed span attributes: each message-ID key occurs at most once.
No typedness is assumed: a message-ID attribute may carry a value of any
type, or none at all. -/
def Span.AttrsWF (span : Span) : Prop :=
  keyCount span.attributes ELEM_ATTR_START_RANGE ≤ 1 ∧
  keyCount span.attributes ELEM_ATTR_RANGE_LEN ≤ 1 ∧
  keyCount span.attributes ELEM_ATTR_MESSAGE_ID ≤ 1

/-- Spec-side description of the acks `Export` must perform: one per span
that lies under a resource carrying a generator ID and that carries the full
message-ID triple. -/
def specExportAcks (request : ExportTraceServiceRequest) : List (String × MsgID) :=
  request.resourceSpans.flatMap fun rs =>
    match rs.resource with
    | none => []
    | some res =>
      if res.specGenId = "" then []
      else
        rs.scopeSpans.flatMap fun ss =>
          (ss.spans.filter fun span => span.hasMsgIdTriple).map fun span =>
            (res.specGenId, span.specMsgId)

end Sink

/-! ### Association-list lemmas -/

theorem alookup_aset_self {κ β : Type} [DecidableEq κ] (k : κ) (v : β) (rs : List (κ × β)) :
    alookup k (aset k v rs) = some v := by
  induction rs with
  | nil => simp [aset, alookup]
  | cons p rest ih =>
    by_cases h : p.1 = k
    · simp [aset, alookup, h]
    · simpa [aset, alookup, h] using ih

theorem alookup_aset_ne {κ β : Type} [DecidableEq κ] {k k' : κ} (v : β) (rs : List (κ × β))
    (h : k' ≠ k) : alookup k' (aset k v rs) = alookup k' rs := by
  induction rs with
  | nil => simp [aset, alookup, Ne.symm h]
  | cons p rest ih =>
    by_cases hp : p.1 = k
    · subst hp
      simp [aset, alookup, Ne.symm h]
    · simp only [aset, if_neg hp]
      by_cases hk' : p.1 = k'
      · simp [alookup, hk']
      · simpa [alookup, hk'] using ih

theorem aset_of_alookup_none {κ β : Type} [DecidableEq κ] {k : κ} (v : β)
    {rs : List (κ × β)} (h : alookup k rs = none) : aset k v rs = rs ++ [(k, v)] := by
  induction rs with
  | nil => simp [aset]
  | cons p rest ih =>
    by_cases hp : p.1 = k
    · simp [alookup, hp] at h
    · simp only [alookup, if_neg hp] at h
      simp [aset, if_neg hp, ih h]

theorem aset_of_alookup_self {κ β : Type} [DecidableEq κ] {k : κ} {v : β}
    {rs : List (κ × β)} (h : alookup k rs = some v) : aset k v rs = rs := by
  induction rs with
  | nil => simp [alookup] at h
  | cons p rest ih =>
    by_cases hp : p.1 = k
    · simp only [alookup, if_pos hp] at h
      obtain ⟨k₀, v₀⟩ := p
      simp only at hp
      subst hp
      cases h
      simp [aset]
    · simp only [alookup, if_neg hp] at h
      simp [aset, if_neg hp, ih h]

theorem alookup_mem {κ β : Type} [DecidableEq κ] {k : κ} {v : β} {rs : List (κ × β)}
    (h : alookup k rs = some v) : (k, v) ∈ rs := by
  induction rs with
  | nil => simp [alookup] at h
  | cons p rest ih =>
    by_cases hp : p.1 = k
    · simp only [alookup, if_pos hp] at h
      obtain ⟨k₀, v₀⟩ := p
      simp only at hp
      subst hp
      cases h
      simp
    · simp only [alookup, if_neg hp] at h
      exact List.mem_cons_of_mem _ (ih h)

theorem mem_aset {κ β : Type} [DecidableEq κ] {k : κ} {v : β} {rs : List (κ × β)}
    {p : κ × β} (h : p ∈ aset k v rs) : p = (k, v) ∨ p ∈ rs := by
  induction rs with
  | nil => simpa [aset] using h
  | cons q rest ih =>
    by_cases hq : q.1 = k
    · simp only [aset, if_pos hq, List.mem_cons] at h
      rcases h with h | h
      · exact Or.inl h
      · exact Or.inr (List.mem_cons_of_mem _ h)
    · simp only [aset, if_neg hq, List.mem_cons] at h
      rcases h with h | h
      · exact Or.inr (by simp [h])
      · rcases ih h with h' | h'
        · exact Or.inl h'
        · exact Or.inr (List.mem_cons_of_mem _ h')

theorem sum_map_aset {κ β : Type} [DecidableEq κ] (f : β → Nat) {k : κ} {r : β}
    {rs : List (κ × β)} (v : β) (h : alookup k rs = some r) :
    ((aset k v rs).map fun p => f p.2).sum + f r = (rs.map fun p => f p.2).sum + f v := by
  induction rs with
  | nil => simp [alookup] at h
  | cons p rest ih =>
    by_cases hp : p.1 = k
    · simp only [alookup, if_pos hp] at h
      cases h
      simp only [aset, if_pos hp, List.map_cons, List.sum_cons]
      omega
    · simp only [alookup, if_neg hp] at h
      simp only [aset, if_neg hp, List.map_cons, List.sum_cons]
      have := ih h
      omega

/-! ### Bit-level lemmas -/

theorem and_shift_ne_zero_iff (w b : Nat) : (w &&& (1 <<< b) ≠ 0) ↔ w.testBit b = true := by
  rw [Nat.one_shiftLeft, Nat.and_two_pow]
  cases h : w.testBit b <;> simp [h, Nat.pos_iff_ne_zero, (Nat.two_pow_pos b).ne']

theorem or_shift_eq_self {w b : Nat} (h : w.testBit b = true) : w ||| (1 <<< b) = w := by
  rw [Nat.one_shiftLeft]
  refine Nat.eq_of_testBit_eq fun i => ?_
  rw [Nat.testBit_or]
  by_cases hib : b = i
  · subst hib
    simp [h]
  · simp [Nat.testBit_two_pow_of_ne hib]

theorem testBit_or_shift_self (w b : Nat) : (w ||| (1 <<< b)).testBit b = true := by
  rw [Nat.one_shiftLeft, Nat.testBit_or, Nat.testBit_two_pow_self]
  simp

theorem list_set_of_get?_eq {α : Type} {l : List α} {i : Nat} {a : α}
    (h : l.get? i = some a) : l.set i a = l := by
  induction l generalizing i with
  | nil => simp [List.get?] at h
  | cons x xs ih =>
    cases i with
    | zero =>
      simp only [List.get?] at h
      cases h
      simp
    | succ j =>
      simp only [List.get?] at h
      simp [List.set, ih h]

namespace MsgTracker

/-! ### MessageRange lemmas -/

theorem sum_map_aset_acked {k : Nat} {r : MessageRange}
    {rs : List (Nat × MessageRange)} (v : MessageRange)
    (h : alookup k rs = some r) :
    ((aset k v rs).map fun p => p.2.AckedCount).sum + r.AckedCount =
      (rs.map fun p => p.2.AckedCount).sum + v.AckedCount :=
  sum_map_aset (fun mr => mr.AckedCount) v h

theorem sum_map_aset_duped {k : Nat} {r : MessageRange}
    {rs : List (Nat × MessageRange)} (v : MessageRange)
    (h : alookup k rs = some r) :
    ((aset k v rs).map fun p => p.2.DuplicateCount).sum + r.DuplicateCount =
      (rs.map fun p => p.2.DuplicateCount).sum + v.DuplicateCount :=
  sum_map_aset (fun mr => mr.DuplicateCount) v h

theorem NewMessageRange_ok {startID rangeLen : Nat} (h : rangeLen ≠ 0) :
    NewMessageRange startID rangeLen =
      Except.ok
        { StartID := startID
          RangeLen := rangeLen
          Timestamp := 0
          AckedCount := 0
          DuplicateCount := 0
          bitmap := List.replicate ((rangeLen + 63) / 64) 0 } := by
  simp [NewMessageRange, h]

/-- When `StartID + RangeLen` does not overflow, `contains` is the half-open
interval test of the specification. -/
theorem contains_eq_of_no_overflow {mr : MessageRange}
    (h : mr.StartID + mr.RangeLen < U64) (msgID : Nat) :
    mr.contains msgID = decide (mr.StartID ≤ msgID ∧ msgID < mr.StartID + mr.RangeLen) := by
  simp [MessageRange.contains, Nat.mod_eq_of_lt h]

/-- A well-formed range never indexes outside its bitmap: if `contains` holds
then the word index is a valid bitmap position. -/
theorem bitmap_idx_lt_of_contains {mr : MessageRange} (hwf : mr.WF)
    {msgID : Nat} (hc : mr.contains msgID = true) :
    (msgID - mr.StartID) / 64 < mr.bitmap.length := by
  obtain ⟨hcap, hlen, hstart⟩ := hwf
  simp only [MessageRange.contains, decide_eq_true_eq] at hc
  obtain ⟨hle, hlt⟩ := hc
  have hmod : (mr.StartID + mr.RangeLen) % U64 ≤ mr.StartID + mr.RangeLen :=
    Nat.mod_le _ _
  by_cases hov : mr.StartID + mr.RangeLen < U64
  · rw [Nat.mod_eq_of_lt hov] at hlt
    rw [Nat.div_lt_iff_lt_mul (by norm_num : (0:Nat) < 64)]
    omega
  · exfalso
    have hge : U64 ≤ mr.StartID + mr.RangeLen := Nat.le_of_not_lt hov
    have h1 : (mr.StartID + mr.RangeLen) % U64 = mr.StartID + mr.RangeLen - U64 := by
      rw [Nat.mod_eq_sub_mod hge]
      exact Nat.mod_eq_of_lt (by omega)
    rw [h1] at hlt
    omega

theorem ack_out_of_range {mr : MessageRange} {msgID : Nat}
    (hc : mr.contains msgID = false) :
    mr.Ack msgID = Except.ok (⟨false, false⟩, false, mr) := by
  simp [MessageRange.Ack, hc]

theorem ack_fresh {mr : MessageRange} {msgID w : Nat}
    (hc : mr.contains msgID = true)
    (hw : mr.bitmap.get? ((msgID - mr.StartID) / 64) = some w)
    (hbit : w.testBit ((msgID - mr.StartID) % 64) = false) :
    mr.Ack msgID =
      Except.ok (⟨false, true⟩, true,
        { mr with
          bitmap := mr.bitmap.set ((msgID - mr.StartID) / 64)
            (w ||| (1 <<< ((msgID - mr.StartID) % 64)))
          AckedCount := mr.AckedCount + 1 }) := by
  have h0 : w &&& (1 <<< ((msgID - mr.StartID) % 64)) = 0 := by
    by_contra hne
    exact absurd ((and_shift_ne_zero_iff w _).mp hne) (by simp [hbit])
  simp [MessageRange.Ack, hc, ← List.get?_eq_getElem?, hw, h0]

theorem ack_dup {mr : MessageRange} {msgID w : Nat}
    (hc : mr.contains msgID = true)
    (hw : mr.bitmap.get? ((msgID - mr.StartID) / 64) = some w)
    (hbit : w.testBit ((msgID - mr.StartID) % 64) = true) :
    mr.Ack msgID =
      Except.ok (⟨true, false⟩, true,
        { mr with DuplicateCount := mr.DuplicateCount + 1 }) := by
  have hor : w ||| (1 <<< ((msgID - mr.StartID) % 64)) = w := or_shift_eq_self hbit
  have hset : mr.bitmap.set ((msgID - mr.StartID) / 64)
      (w ||| (1 <<< ((msgID - mr.StartID) % 64))) = mr.bitmap := by
    rw [hor]
    exact list_set_of_get?_eq hw
  have hnz : w &&& (1 <<< ((msgID - mr.StartID) % 64)) ≠ 0 :=
    (and_shift_ne_zero_iff w _).mpr hbit
  simp [MessageRange.Ack, hc, ← List.get?_eq_getElem?, hw, hnz, hset]

/-- Every successful `Ack` preserves the identity fields, the timestamp, the
bitmap length, and bumps exactly one counter by one. -/
theorem ack_ok_frame {mr : MessageRange} {msgID : Nat} {res : AckedResult} {b : Bool}
    {r' : MessageRange} (h : mr.Ack msgID = Except.ok (res, b, r')) :
    r'.StartID = mr.StartID ∧ r'.RangeLen = mr.RangeLen ∧ r'.Timestamp = mr.Timestamp ∧
      r'.bitmap.length = mr.bitmap.length := by
  by_cases hc : mr.contains msgID = true
  · rcases hw : mr.bitmap.get? ((msgID - mr.StartID) / 64) with _ | w
    · simp [MessageRange.Ack, hc, ← List.get?_eq_getElem?, hw] at h
    · by_cases hbit : w.testBit ((msgID - mr.StartID) % 64) = true
      · rw [ack_dup hc hw hbit] at h
        simp only [Except.ok.injEq, Prod.mk.injEq] at h
        obtain ⟨-, -, h3⟩ := h
        subst h3
        exact ⟨rfl, rfl, rfl, rfl⟩
      · rw [ack_fresh hc hw (by simpa using hbit)] at h
        simp only [Except.ok.injEq, Prod.mk.injEq] at h
        obtain ⟨-, -, h3⟩ := h
        subst h3
        simp
  · rw [ack_out_of_range (by simpa using hc)] at h
    simp only [Except.ok.injEq, Prod.mk.injEq] at h
    obtain ⟨-, -, h3⟩ := h
    subst h3
    exact ⟨rfl, rfl, rfl, rfl⟩

/-- `Ack` preserves well-formedness. -/
theorem ack_ok_WF {mr : MessageRange} {msgID : Nat} {res : AckedResult} {b : Bool}
    {r' : MessageRange} (hwf : mr.WF) (h : mr.Ack msgID = Except.ok (res, b, r')) :
    r'.WF := by
  obtain ⟨h1, h2, h3, h4⟩ := ack_ok_frame h
  obtain ⟨hcap, hlen, hstart⟩ := hwf
  exact ⟨by omega, by omega, by omega⟩

end MsgTracker

namespace MsgTracker

/-! ### Claim C2 -/

/-- C2: for every well-formed `MessageRange` whose end `start_id + range_len`
does not overflow `uint64`, `Ack(msg_id)` reports out-of-range and leaves the
bitmap and both counters unchanged when `msg_id < start_id` or
`msg_id ≥ start_id + range_len`, and otherwise sets the bit at offset
`msg_id - start_id`, incrementing `acked_count` if the bit was clear and
`duplicate_count` if it was set — exactly the spec-side contract `ackSpec`. -/
theorem messageRange_ack_matches_spec (mr : MessageRange) (msgID : Nat)
    (hwf : mr.WF) (hov : mr.StartID + mr.RangeLen < U64) :
    mr.Ack msgID = Except.ok (mr.ackSpec msgID) := by
  by_cases hin : msgID < mr.StartID ∨ mr.StartID + mr.RangeLen ≤ msgID
  · have hc : mr.contains msgID = false := by
      rw [contains_eq_of_no_overflow hov]
      exact decide_eq_false (by omega)
    rw [ack_out_of_range hc]
    simp [MessageRange.ackSpec, hin]
  · have hc : mr.contains msgID = true := by
      rw [contains_eq_of_no_overflow hov]
      exact decide_eq_true (by omega)
    have hidx := bitmap_idx_lt_of_contains hwf hc
    rcases hw : mr.bitmap.get? ((msgID - mr.StartID) / 64) with _ | w
    · rw [List.get?_eq_none] at hw
      omega
    · have hw' : mr.bitmap[(msgID - mr.StartID) / 64]? = some w := by
        rw [← List.get?_eq_getElem?]
        exact hw
      cases hbit : w.testBit ((msgID - mr.StartID) % 64)
      · rw [ack_fresh hc hw hbit]
        simp [MessageRange.ackSpec, hin, hw', hbit]
      · rw [ack_dup hc hw hbit]
        have hset : mr.bitmap.set ((msgID - mr.StartID) / 64)
            (w ||| (1 <<< ((msgID - mr.StartID) % 64))) = mr.bitmap := by
          rw [or_shift_eq_self hbit]
          exact list_set_of_get?_eq hw
        simp [MessageRange.ackSpec, hin, hw', hbit, hset]

/-- Witness for C2 at a concrete range and message ID. -/
theorem messageRange_ack_matches_spec_witness :
    ({ StartID := 100, RangeLen := 101, Timestamp := 0, AckedCount := 0,
       DuplicateCount := 0, bitmap := [0, 0] } : MessageRange).Ack 150 =
      Except.ok
        (({ StartID := 100, RangeLen := 101, Timestamp := 0, AckedCount := 0,
            DuplicateCount := 0, bitmap := [0, 0] } : MessageRange).ackSpec 150) :=
  messageRange_ack_matches_spec _ 150 (by decide) (by decide)

/-! ### Claim C3 -/

theorem get?_some_lt {α : Type} {l : List α} {i : Nat} {a : α}
    (h : l.get? i = some a) : i < l.length := by
  by_contra hle
  rw [List.get?_eq_none.mpr (by omega)] at h
  cases h

/-- Once the bit for `msgID` is set, every further ack is a duplicate: `m`
more acks leave everything but `DuplicateCount` unchanged. -/
theorem ackN_dup_iter :
    ∀ (m : Nat) (r : MessageRange) (msgID w : Nat),
      r.contains msgID = true →
      r.bitmap.get? ((msgID - r.StartID) / 64) = some w →
      w.testBit ((msgID - r.StartID) % 64) = true →
      r.ackN msgID m = Except.ok { r with DuplicateCount := r.DuplicateCount + m } := by
  intro m
  induction m with
  | zero =>
    intro r msgID w hc hw hbit
    simp [MessageRange.ackN]
  | succ k ih =>
    intro r msgID w hc hw hbit
    have harith : r.DuplicateCount + (k + 1) = r.DuplicateCount + 1 + k := by omega
    rw [harith]
    show (r.Ack msgID).bind _ = _
    rw [ack_dup hc hw hbit]
    exact ih { r with DuplicateCount := r.DuplicateCount + 1 } msgID w hc hw hbit

/-- Closed form for `n + 1` acks of a message whose bit starts clear: the
first ack sets the bit and bumps `AckedCount`, the remaining `n` bump
`DuplicateCount`. -/
theorem ackN_fresh_closed {mr : MessageRange} {msgID w : Nat}
    (hc : mr.contains msgID = true)
    (hw : mr.bitmap.get? ((msgID - mr.StartID) / 64) = some w)
    (hclear : w.testBit ((msgID - mr.StartID) % 64) = false) (n : Nat) :
    mr.ackN msgID (n + 1) =
      Except.ok
        { mr with
          bitmap := mr.bitmap.set ((msgID - mr.StartID) / 64)
            (w ||| (1 <<< ((msgID - mr.StartID) % 64)))
          AckedCount := mr.AckedCount + 1
          DuplicateCount := mr.DuplicateCount + n } := by
  have hlt := get?_some_lt hw
  show (mr.Ack msgID).bind _ = _
  rw [ack_fresh hc hw hclear]
  exact ackN_dup_iter n _ msgID (w ||| (1 <<< ((msgID - mr.StartID) % 64))) hc
    (by simpa using List.getElem?_set_eq_of_lt (w ||| (1 <<< ((msgID - mr.StartID) % 64))) hlt)
    (testBit_or_shift_self w _)

/-- C3: for `n ≥ 1` acks of the same in-range `msg_id` whose bit starts
clear, the first call sets the bit and increments `acked_count` by 1, every
later call (`1 ≤ k < n`) leaves the bitmap unchanged and increments
`duplicate_count` by 1, and after all `n` calls `acked_count` has grown by
exactly 1 and `duplicate_count` by exactly `n - 1`. -/
theorem messageRange_repeated_ack (mr : MessageRange) (msgID w n k : Nat)
    (hn : 1 ≤ n) (hk : 1 ≤ k) (hkn : k < n)
    (hc : mr.contains msgID = true)
    (hw : mr.bitmap.get? ((msgID - mr.StartID) / 64) = some w)
    (hclear : w.testBit ((msgID - mr.StartID) % 64) = false) :
    mr.ackN msgID n =
      Except.ok
        { mr with
          bitmap := mr.bitmap.set ((msgID - mr.StartID) / 64)
            (w ||| (1 <<< ((msgID - mr.StartID) % 64)))
          AckedCount := mr.AckedCount + 1
          DuplicateCount := mr.DuplicateCount + (n - 1) } ∧
    mr.Ack msgID =
      Except.ok (⟨false, true⟩, true,
        { mr with
          bitmap := mr.bitmap.set ((msgID - mr.StartID) / 64)
            (w ||| (1 <<< ((msgID - mr.StartID) % 64)))
          AckedCount := mr.AckedCount + 1 }) ∧
    (mr.ackN msgID (k + 1)).map (fun r => r.bitmap) =
      (mr.ackN msgID k).map (fun r => r.bitmap) ∧
    (mr.ackN msgID (k + 1)).map (fun r => r.DuplicateCount) =
      (mr.ackN msgID k).map (fun r => r.DuplicateCount + 1) := by
  obtain ⟨m, rfl⟩ : ∃ m, n = m + 1 := ⟨n - 1, by omega⟩
  obtain ⟨j, rfl⟩ : ∃ j, k = j + 1 := ⟨k - 1, by omega⟩
  refine ⟨?_, ack_fresh hc hw hclear, ?_, ?_⟩
  · rw [ackN_fresh_closed hc hw hclear m]
    simp
  · rw [ackN_fresh_closed hc hw hclear (j + 1), ackN_fresh_closed hc hw hclear j]
    rfl
  · rw [ackN_fresh_closed hc hw hclear (j + 1), ackN_fresh_closed hc hw hclear j]
    simp [Except.map]
    omega

/-- Witness for C3: three acks of message 2 on a fresh 5-message range. -/
theorem messageRange_repeated_ack_witness :
    ({ StartID := 0, RangeLen := 5, Timestamp := 0, AckedCount := 0,
       DuplicateCount := 0, bitmap := [0] } : MessageRange).ackN 2 3 =
      Except.ok
        { StartID := 0, RangeLen := 5, Timestamp := 0, AckedCount := 1,
          DuplicateCount := 2, bitmap := [4] } :=
  (messageRange_repeated_ack
    { StartID := 0, RangeLen := 5, Timestamp := 0, AckedCount := 0,
      DuplicateCount := 0, bitmap := [0] } 2 0 3 1
    (by decide) (by decide) (by decide) (by decide) (by decide) (by decide)).1

/-! ### Claim C1 -/

/-- C1 (counterexample): after acking message 5 in range `("g", 1, len 10)`
— which sets the bit at offset 4 — `UpdateRange("g", 1, 3)` violates the
claimed precondition (a set bit lies at offset `4 ≥ 3`), yet the tracker
emits no warning and truncates `RangeLen` from 10 to 3: the state is not
left untouched. -/
theorem tracker_updateRange_violation_counterexample :
    (Tracker.Ack NewTracker "g" 1 10 5).map
        (fun p =>
          ((p.2.UpdateRange "g" 1 3).1, Tracker.rangeOf (p.2.UpdateRange "g" 1 3).2 "g" 1)) =
      Except.ok (false, some
        { StartID := 1, RangeLen := 3, Timestamp := 0,
          AckedCount := 1, DuplicateCount := 0, bitmap := [16] }) ∧
    ((false : Bool), some
        ({ StartID := 1, RangeLen := 3, Timestamp := 0,
           AckedCount := 1, DuplicateCount := 0, bitmap := [16] } : MessageRange)) ≠
      (true, some
        { StartID := 1, RangeLen := 10, Timestamp := 0,
          AckedCount := 1, DuplicateCount := 0, bitmap := [16] }) :=
  ⟨rfl, by decide⟩

/-- C1 (amended): `UpdateRange` warns and no-ops only for an unknown
generator or an unknown range; on an existing range it sets `RangeLen` to
`new_len` unconditionally — including when `new_len > range_len` or a set bit
lies at offset `≥ new_len` — emitting no warning and leaving the bitmap and
counters unchanged. -/
theorem tracker_updateRange_amended (t : Tracker) (g : String) (s L : Nat)
    (gt : generatorTracker) (r : MessageRange)
    (hg : alookup g t.generators = some gt)
    (hr : alookup s gt.ranges = some r) :
    t.UpdateRange g s L =
      (false,
        { generators :=
            aset g { gt with ranges := aset s { r with RangeLen := L } gt.ranges }
              t.generators }) := by
  simp [Tracker.UpdateRange, hg, hr]

/-- Witness for the amended C1 at a concrete tracker. -/
theorem tracker_updateRange_amended_witness :
    Tracker.UpdateRange
        { generators := [("g",
          { totalAcked := 1, totalDuped := 0,
            ranges := [(1,
              { StartID := 1, RangeLen := 10, Timestamp := 0,
                AckedCount := 1, DuplicateCount := 0, bitmap := [16] })] })] } "g" 1 3 =
      (false,
        { generators := [("g",
          { totalAcked := 1, totalDuped := 0,
            ranges := [(1,
              { StartID := 1, RangeLen := 3, Timestamp := 0,
                AckedCount := 1, DuplicateCount := 0, bitmap := [16] })] })] }) :=
  tracker_updateRange_amended
    { generators := [("g",
      { totalAcked := 1, totalDuped := 0,
        ranges := [(1,
          { StartID := 1, RangeLen := 10, Timestamp := 0,
            AckedCount := 1, DuplicateCount := 0, bitmap := [16] })] })] } "g" 1 3
    { totalAcked := 1, totalDuped := 0,
      ranges := [(1,
        { StartID := 1, RangeLen := 10, Timestamp := 0,
          AckedCount := 1, DuplicateCount := 0, bitmap := [16] })] }
    { StartID := 1, RangeLen := 10, Timestamp := 0,
      AckedCount := 1, DuplicateCount := 0, bitmap := [16] } rfl rfl

/-! ### Claim C10 -/

/-- C10: tracker operations locate a range by `start_id` alone.  When the
range `(g, s)` already exists, `Ack` gives identical results and states for
any two `range_len` arguments, and `IsAcked` never reads its `range_len`
argument at all. -/
theorem tracker_rangeLen_ignored (t : Tracker) (g : String) (s L1 L2 m : Nat)
    (r : MessageRange)
    (hr : alookup s (t.getOrNewGenerator g).ranges = some r) :
    t.Ack g s L1 m = t.Ack g s L2 m ∧
    t.IsAcked g s L1 m = t.IsAcked g s L2 m := by
  constructor
  · simp [Tracker.Ack, generatorTracker.addRange, hr]
  · rfl

/-- Witness for C10: acking with a wrong `range_len` (999 instead of the
stored 10) behaves identically. -/
theorem tracker_rangeLen_ignored_witness :
    Tracker.Ack
        { generators := [("g",
          { totalAcked := 0, totalDuped := 0,
            ranges := [(1,
              { StartID := 1, RangeLen := 10, Timestamp := 0,
                AckedCount := 0, DuplicateCount := 0, bitmap := [0] })] })] } "g" 1 10 5 =
      Tracker.Ack
        { generators := [("g",
          { totalAcked := 0, totalDuped := 0,
            ranges := [(1,
              { StartID := 1, RangeLen := 10, Timestamp := 0,
                AckedCount := 0, DuplicateCount := 0, bitmap := [0] })] })] } "g" 1 999 5 :=
  (tracker_rangeLen_ignored
    { generators := [("g",
      { totalAcked := 0, totalDuped := 0,
        ranges := [(1,
          { StartID := 1, RangeLen := 10, Timestamp := 0,
            AckedCount := 0, DuplicateCount := 0, bitmap := [0] })] })] } "g" 1 10 999 5
    { StartID := 1, RangeLen := 10, Timestamp := 0,
      AckedCount := 0, DuplicateCount := 0, bitmap := [0] } rfl).1

/-! ### Tracker unfolding lemmas -/

theorem addRange_found {gt : generatorTracker} {s : Nat} (len : Nat) {r : MessageRange}
    (h : alookup s gt.ranges = some r) : gt.addRange s len = Except.ok (r, gt) := by
  simp [generatorTracker.addRange, h]

theorem addRange_new {gt : generatorTracker} {s len : Nat} {nr : MessageRange}
    (habs : alookup s gt.ranges = none) (hnew : NewMessageRange s len = Except.ok nr) :
    gt.addRange s len = Except.ok (nr, { gt with ranges := aset s nr gt.ranges }) := by
  simp [generatorTracker.addRange, habs, hnew, Except.map]

theorem addRangeWithTimestamp_found {gt : generatorTracker} {s : Nat} (len ts : Nat)
    {r : MessageRange} (h : alookup s gt.ranges = some r) :
    gt.addRangeWithTimestamp s len ts =
      Except.ok { gt with ranges := aset s (r.UpdateTimestamp ts) gt.ranges } := by
  simp [generatorTracker.addRangeWithTimestamp, h]

theorem addRangeWithTimestamp_new {gt : generatorTracker} {s len : Nat} (ts : Nat)
    {nr : MessageRange} (habs : alookup s gt.ranges = none)
    (hnew : NewMessageRange s len = Except.ok nr) :
    gt.addRangeWithTimestamp s len ts =
      Except.ok { gt with ranges := aset s { nr with Timestamp := ts } gt.ranges } := by
  simp [generatorTracker.addRangeWithTimestamp, habs, hnew, Except.map]

theorem tracker_ack_unfold {t : Tracker} {g : String} {s len m : Nat}
    {nr : MessageRange} {gt1 : generatorTracker} {res : AckedResult} {b : Bool}
    {r1 : MessageRange}
    (haddR : (t.getOrNewGenerator g).addRange s len = Except.ok (nr, gt1))
    (hack : nr.Ack m = Except.ok (res, b, r1)) :
    t.Ack g s len m =
      Except.ok (b,
        { generators :=
            aset g (ackCounters res b { gt1 with ranges := aset s r1 gt1.ranges })
              t.generators }) := by
  have hstep : t.Ack g s len m =
      (nr.Ack m).bind fun p =>
        Except.ok (p.2.1,
          { generators :=
              aset g (ackCounters p.1 p.2.1 { gt1 with ranges := aset s p.2.2 gt1.ranges })
                t.generators }) := by
    simp only [Tracker.Ack]
    rw [haddR]
    rfl
  rw [hstep, hack]
  rfl

theorem tracker_updateRange_found {t : Tracker} {g : String} {s : Nat} (L : Nat)
    {gt : generatorTracker} {r : MessageRange}
    (hg : alookup g t.generators = some gt) (hr : alookup s gt.ranges = some r) :
    t.UpdateRange g s L =
      (false,
        { generators :=
            aset g { gt with ranges := aset s { r with RangeLen := L } gt.ranges }
              t.generators }) := by
  simp [Tracker.UpdateRange, hg, hr]

theorem tracker_addRange_unfold {t : Tracker} {g : String} {s len ts : Nat}
    {gt2 : generatorTracker}
    (h : (t.getOrNewGenerator g).addRangeWithTimestamp s len ts = Except.ok gt2) :
    t.AddRange g s len ts = Except.ok { generators := aset g gt2 t.generators } := by
  simp only [Tracker.AddRange]
  rw [h]
  rfl

/-! ### Claim C5 -/

/-- The three possible outcomes of a successful `MessageRange.Ack`. -/
theorem ack_cases {mr : MessageRange} {msgID : Nat} {res : AckedResult} {b : Bool}
    {r' : MessageRange} (h : mr.Ack msgID = Except.ok (res, b, r')) :
    (b = false ∧ res = ⟨false, false⟩ ∧ r' = mr) ∨
    (b = true ∧ res = ⟨false, true⟩ ∧ r'.AckedCount = mr.AckedCount + 1 ∧
      r'.DuplicateCount = mr.DuplicateCount) ∨
    (b = true ∧ res = ⟨true, false⟩ ∧ r'.AckedCount = mr.AckedCount ∧
      r'.DuplicateCount = mr.DuplicateCount + 1) := by
  by_cases hc : mr.contains msgID = true
  · rcases hw : mr.bitmap.get? ((msgID - mr.StartID) / 64) with _ | w
    · simp [MessageRange.Ack, hc, ← List.get?_eq_getElem?, hw] at h
    · by_cases hbit : w.testBit ((msgID - mr.StartID) % 64) = true
      · rw [ack_dup hc hw hbit] at h
        simp only [Except.ok.injEq, Prod.mk.injEq] at h
        obtain ⟨h1, h2, h3⟩ := h
        subst h3
        exact Or.inr (Or.inr ⟨h2.symm, h1.symm, rfl, rfl⟩)
      · rw [ack_fresh hc hw (by simpa using hbit)] at h
        simp only [Except.ok.injEq, Prod.mk.injEq] at h
        obtain ⟨h1, h2, h3⟩ := h
        subst h3
        exact Or.inr (Or.inl ⟨h2.symm, h1.symm, rfl, rfl⟩)
  · rw [ack_out_of_range (by simpa using hc)] at h
    simp only [Except.ok.injEq, Prod.mk.injEq] at h
    obtain ⟨h1, h2, h3⟩ := h
    exact Or.inl ⟨h2.symm, h1.symm, h3.symm⟩

theorem sum_map_append {κ : Type} (f : MessageRange → Nat) (rs : List (κ × MessageRange))
    (k : κ) (v : MessageRange) :
    (((rs ++ [(k, v)]).map fun p => f p.2).sum) = ((rs.map fun p => f p.2).sum) + f v := by
  simp

/-- The generator tracker read (or created) by an operation is coherent. -/
theorem getOrNewGenerator_coherent {t : Tracker} (g : String) (hInv : CountersInv t) :
    (t.getOrNewGenerator g).Coherent := by
  unfold Tracker.getOrNewGenerator
  rcases hl : alookup g t.generators with _ | gt
  · exact ⟨rfl, rfl⟩
  · exact hInv (g, gt) (alookup_mem hl)

/-- `addRange` preserves coherence, and the range it returns is stored. -/
theorem addRange_coherent {gt : generatorTracker} {s len : Nat} {r : MessageRange}
    {gt1 : generatorTracker} (hco : gt.Coherent)
    (h : gt.addRange s len = Except.ok (r, gt1)) :
    gt1.Coherent ∧ alookup s gt1.ranges = some r ∧
      gt1.totalAcked = gt.totalAcked ∧ gt1.totalDuped = gt.totalDuped := by
  rcases hl : alookup s gt.ranges with _ | r0
  · rcases h0 : NewMessageRange s len with msg | nr
    · have hbad : gt.addRange s len = Except.error msg := by
        simp [generatorTracker.addRange, hl, h0, Except.map]
      rw [hbad] at h
      cases h
    · rw [addRange_new hl h0] at h
      simp only [Except.ok.injEq, Prod.mk.injEq] at h
      obtain ⟨h1, h2⟩ := h
      have hzero : nr.AckedCount = 0 ∧ nr.DuplicateCount = 0 := by
        by_cases hz : len = 0
        · simp [NewMessageRange, hz] at h0
        · rw [NewMessageRange_ok hz] at h0
          cases h0
          exact ⟨rfl, rfl⟩
      refine ⟨⟨?_, ?_⟩, ?_, ?_, ?_⟩
      · rw [← h2]
        show ((aset s nr gt.ranges).map fun p => p.2.AckedCount).sum = gt.totalAcked
        rw [aset_of_alookup_none nr hl, sum_map_append, hzero.1, hco.1]
        omega
      · rw [← h2]
        show ((aset s nr gt.ranges).map fun p => p.2.DuplicateCount).sum = gt.totalDuped
        rw [aset_of_alookup_none nr hl, sum_map_append, hzero.2, hco.2]
        omega
      · rw [← h2, ← h1]
        exact alookup_aset_self s nr gt.ranges
      · rw [← h2]
      · rw [← h2]
  · rw [addRange_found len hl] at h
    simp only [Except.ok.injEq, Prod.mk.injEq] at h
    obtain ⟨h1, h2⟩ := h
    rw [← h2, ← h1]
    exact ⟨hco, hl, rfl, rfl⟩

/-- Storing the acked range and bumping the matching cumulative counter
preserves coherence. -/
theorem ack_store_coherent {gt1 : generatorTracker} {s m : Nat} {r : MessageRange}
    {res : AckedResult} {b : Bool} {r1 : MessageRange}
    (hco : gt1.Coherent) (hl : alookup s gt1.ranges = some r)
    (hack : r.Ack m = Except.ok (res, b, r1)) :
    (ackCounters res b { gt1 with ranges := aset s r1 gt1.ranges }).Coherent := by
  obtain ⟨hA, hD⟩ := hco
  have hsumA := sum_map_aset_acked r1 hl
  have hsumD := sum_map_aset_duped r1 hl
  rcases ack_cases hack with ⟨hb, hres, hr⟩ | ⟨hb, hres, hA1, hD1⟩ | ⟨hb, hres, hA1, hD1⟩
  · subst hb
    subst hres
    subst hr
    have hid : ({ gt1 with ranges := aset s r1 gt1.ranges } : generatorTracker) = gt1 := by
      rw [aset_of_alookup_self hl]
    rw [hid]
    exact ⟨hA, hD⟩
  · subst hb
    subst hres
    refine ⟨?_, ?_⟩
    · show ((aset s r1 gt1.ranges).map fun p => p.2.AckedCount).sum = gt1.totalAcked + 1
      omega
    · show ((aset s r1 gt1.ranges).map fun p => p.2.DuplicateCount).sum = gt1.totalDuped
      omega
  · subst hb
    subst hres
    refine ⟨?_, ?_⟩
    · show ((aset s r1 gt1.ranges).map fun p => p.2.AckedCount).sum = gt1.totalAcked
      omega
    · show ((aset s r1 gt1.ranges).map fun p => p.2.DuplicateCount).sum = gt1.totalDuped + 1
      omega

/-- Replacing one generator's tracker by a coherent one preserves the
invariant. -/
theorem countersInv_aset {t : Tracker} {g : String} {gt : generatorTracker}
    (hInv : CountersInv t) (hco : gt.Coherent) :
    CountersInv { generators := aset g gt t.generators } := by
  intro p hp
  rcases mem_aset hp with h | h
  · rw [h]
    exact hco
  · exact hInv p h

/-- One sequential tracker operation preserves counter coherence. -/
theorem step_preserves_countersInv {t t' : Tracker} {op : TrackerOp}
    (hInv : CountersInv t) (h : t.step op = Except.ok t') : CountersInv t' := by
  cases op with
  | ack g s L m =>
    rcases haddR : (t.getOrNewGenerator g).addRange s L with msg | ⟨r, gt1⟩
    · have hbad : t.Ack g s L m = Except.error msg := by
        simp only [Tracker.Ack]
        rw [haddR]
        rfl
      simp [Tracker.step, hbad, Except.map] at h
    · rcases hack : r.Ack m with msg | ⟨⟨res, b, r1⟩⟩
      · have hbad : t.Ack g s L m = Except.error msg := by
          simp only [Tracker.Ack]
          rw [haddR]
          show (r.Ack m).bind _ = _
          rw [hack]
          rfl
        simp [Tracker.step, hbad, Except.map] at h
      · have hAck := tracker_ack_unfold haddR hack
        have ht' : t' =
            ({ generators :=
                aset g (ackCounters res b { gt1 with ranges := aset s r1 gt1.ranges })
                  t.generators } : Tracker) := by
          simp [Tracker.step, hAck, Except.map] at h
          exact h.symm
        subst ht'
        obtain ⟨hco1, hl1, -, -⟩ :=
          addRange_coherent (getOrNewGenerator_coherent g hInv) haddR
        exact countersInv_aset hInv (ack_store_coherent hco1 hl1 hack)
  | addRange g s L ts =>
    rcases hAR : (t.getOrNewGenerator g).addRangeWithTimestamp s L ts with msg | gt2
    · have hbad : t.AddRange g s L ts = Except.error msg := by
        simp only [Tracker.AddRange]
        rw [hAR]
        rfl
      simp [Tracker.step, hbad] at h
    · have hok := tracker_addRange_unfold hAR
      have ht' : t' = { generators := aset g gt2 t.generators } := by
        simp [Tracker.step, hok] at h
        exact h.symm
      subst ht'
      refine countersInv_aset hInv ?_
      have hco0 := getOrNewGenerator_coherent g hInv
      rcases hl : alookup s (t.getOrNewGenerator g).ranges with _ | r0
      · rcases h0 : NewMessageRange s L with msg | nr
        · have hbad : (t.getOrNewGenerator g).addRangeWithTimestamp s L ts
              = Except.error msg := by
            simp [generatorTracker.addRangeWithTimestamp, hl, h0, Except.map]
          rw [hbad] at hAR
          cases hAR
        · rw [addRangeWithTimestamp_new ts hl h0] at hAR
          have hzero : nr.AckedCount = 0 ∧ nr.DuplicateCount = 0 := by
            by_cases hz : L = 0
            · simp [NewMessageRange, hz] at h0
            · rw [NewMessageRange_ok hz] at h0
              cases h0
              exact ⟨rfl, rfl⟩
          simp only [Except.ok.injEq] at hAR
          rw [← hAR]
          refine ⟨?_, ?_⟩
          · show ((aset s { nr with Timestamp := ts } (t.getOrNewGenerator g).ranges).map
              fun p => p.2.AckedCount).sum = (t.getOrNewGenerator g).totalAcked
            rw [aset_of_alookup_none _ hl, sum_map_append]
            show _ + nr.AckedCount = _
            rw [hzero.1, hco0.1]
            omega
          · show ((aset s { nr with Timestamp := ts } (t.getOrNewGenerator g).ranges).map
              fun p => p.2.DuplicateCount).sum = (t.getOrNewGenerator g).totalDuped
            rw [aset_of_alookup_none _ hl, sum_map_append]
            show _ + nr.DuplicateCount = _
            rw [hzero.2, hco0.2]
            omega
      · rw [addRangeWithTimestamp_found L ts hl] at hAR
        simp only [Except.ok.injEq] at hAR
        rw [← hAR]
        have hsumA := sum_map_aset_acked (r0.UpdateTimestamp ts) hl
        have hsumD := sum_map_aset_duped (r0.UpdateTimestamp ts) hl
        refine ⟨?_, ?_⟩
        · show ((aset s (r0.UpdateTimestamp ts) (t.getOrNewGenerator g).ranges).map
            fun p => p.2.AckedCount).sum = (t.getOrNewGenerator g).totalAcked
          have : (r0.UpdateTimestamp ts).AckedCount = r0.AckedCount := rfl
          obtain ⟨hA, hD⟩ := hco0
          omega
        · show ((aset s (r0.UpdateTimestamp ts) (t.getOrNewGenerator g).ranges).map
            fun p => p.2.DuplicateCount).sum = (t.getOrNewGenerator g).totalDuped
          have : (r0.UpdateTimestamp ts).DuplicateCount = r0.DuplicateCount := rfl
          obtain ⟨hA, hD⟩ := hco0
          omega
  | updateRange g s L =>
    rcases hg : alookup g t.generators with _ | gt
    · have hUR : t.UpdateRange g s L = (true, t) := by
        simp [Tracker.UpdateRange, hg]
      simp [Tracker.step, hUR] at h
      rw [← h]
      exact hInv
    · rcases hr : alookup s gt.ranges with _ | r
      · have hUR : t.UpdateRange g s L = (true, t) := by
          simp [Tracker.UpdateRange, hg, hr]
        simp [Tracker.step, hUR] at h
        rw [← h]
        exact hInv
      · have hUR := tracker_updateRange_found L hg hr
        simp [Tracker.step, hUR] at h
        rw [← h]
        refine countersInv_aset hInv ?_
        have hco : gt.Coherent := hInv (g, gt) (alookup_mem hg)
        have hsumA := sum_map_aset_acked { r with RangeLen := L } hr
        have hsumD := sum_map_aset_duped { r with RangeLen := L } hr
        obtain ⟨hA, hD⟩ := hco
        refine ⟨?_, ?_⟩
        · show ((aset s { r with RangeLen := L } gt.ranges).map
            fun p => p.2.AckedCount).sum = gt.totalAcked
          have : ({ r with RangeLen := L } : MessageRange).AckedCount = r.AckedCount := rfl
          omega
        · show ((aset s { r with RangeLen := L } gt.ranges).map
            fun p => p.2.DuplicateCount).sum = gt.totalDuped
          have : ({ r with RangeLen := L } : MessageRange).DuplicateCount =
            r.DuplicateCount := rfl
          omega
  | isAcked g s L m =>
    rcases hq : t.IsAcked g s L m with msg | bv
    · simp [Tracker.step, hq, Except.map] at h
    · simp [Tracker.step, hq, Except.map] at h
      rw [← h]
      exact hInv
  | ackedCount =>
    simp only [Tracker.step, Except.ok.injEq] at h
    rw [← h]
    exact hInv
  | generatorReport ts =>
    simp only [Tracker.step, Except.ok.injEq] at h
    rw [← h]
    exact hInv

theorem run_preserves_countersInv :
    ∀ (ops : List TrackerOp) (t t' : Tracker),
      CountersInv t → Tracker.run t ops = Except.ok t' → CountersInv t' := by
  intro ops
  induction ops with
  | nil =>
    intro t t' hInv h
    simp only [Tracker.run, Except.ok.injEq] at h
    rw [← h]
    exact hInv
  | cons op rest ih =>
    intro t t' hInv h
    rcases hstep : t.step op with msg | t1
    · rw [Tracker.run, hstep] at h
      cases h
    · rw [Tracker.run, hstep] at h
      exact ih t1 t' (step_preserves_countersInv hInv hstep) h

/-- C4: for every generator tracked by the tracker, after any sequence of
tracker operations (acks, range announcements, range updates and queries)
executed sequentially from the empty tracker, the sum of `acked_count` over
the generator's ranges equals its cumulative `totalAcked`, and the sum of
`duplicate_count` equals its cumulative `totalDuped` (the `CountersInv`
predicate). -/
theorem tracker_counters_invariant (ops : List TrackerOp) (t' : Tracker)
    (h : Tracker.run NewTracker ops = Except.ok t') : CountersInv t' :=
  run_preserves_countersInv ops NewTracker t'
    (by intro p hp; simp [NewTracker] at hp) h

/-- Witness for C4: a fresh ack, a duplicate ack, then a truncation. -/
theorem tracker_counters_invariant_witness :
    CountersInv
      { generators := [("g",
        { totalAcked := 1, totalDuped := 1,
          ranges := [(1,
            { StartID := 1, RangeLen := 7, Timestamp := 0, AckedCount := 1,
              DuplicateCount := 1, bitmap := [16] })] })] } :=
  tracker_counters_invariant
    [TrackerOp.ack "g" 1 10 5, TrackerOp.ack "g" 1 10 5, TrackerOp.updateRange "g" 1 7]
    { generators := [("g",
      { totalAcked := 1, totalDuped := 1,
        ranges := [(1,
          { StartID := 1, RangeLen := 7, Timestamp := 0, AckedCount := 1,
            DuplicateCount := 1, bitmap := [16] })] })] } rfl

end MsgTracker

namespace Worker

/-! ### Claim C8 -/

/-- `nextId` when the current range still has room: consume one ID. -/
theorem nextId_eq_of_not_full {gid : String} {nsi : Nat} {r : msgIdRange} (now : Nat)
    (h : r.used < r.len) (hbound : r.startId + r.used < U64) :
    MsgIdGenerator.nextId ⟨gid, nsi, some r⟩ now =
      Except.ok ({ StartID := r.startId, Len := r.len, ID := r.startId + r.used },
        ⟨gid, nsi, some { r with used := r.used + 1 }⟩, none) := by
  have hfull : r.isFull = false := by
    simp [msgIdRange.isFull]
    omega
  simp [MsgIdGenerator.nextId, msgIdRange.nextId, hfull, Except.map,
    Nat.mod_eq_of_lt hbound]

/-- `nextId` when a fresh range must be allocated: announce it and consume
its first ID. -/
theorem nextId_eq_alloc {g : MsgIdGenerator} (now : Nat)
    (hfull : (match g.currRange with | none => true | some r => r.isFull) = true)
    (hb : g.nextStartId < U64) :
    g.nextId now =
      Except.ok ({ StartID := g.nextStartId, Len := ALLOC_SIZE, ID := g.nextStartId },
        { generatorId := g.generatorId,
          nextStartId := (g.nextStartId + ALLOC_SIZE) % U64,
          currRange := some
            { startId := g.nextStartId, len := ALLOC_SIZE, used := 1,
              timestamp := now } },
        some
          { GeneratorID := g.generatorId, StartID := g.nextStartId,
            RangeLen := ALLOC_SIZE, Timestamp := now }) := by
  obtain ⟨gid, nsi, cr⟩ := g
  have hne : ¬ (1000 : Nat) ≤ 0 := by omega
  rcases cr with _ | r
  · simp only [MsgIdGenerator.nextId, MsgIdGenerator.nextRange, msgIdRange.nextId,
      msgIdRange.isFull, ALLOC_SIZE, if_true, Except.map]
    have hb' : nsi < U64 := hb
    simp only [decide_eq_true_eq, if_neg hne, Nat.add_zero, Nat.zero_add,
      Nat.mod_eq_of_lt hb']
  · have hf : r.isFull = true := by simpa using hfull
    have hb' : nsi < U64 := hb
    simp only [MsgIdGenerator.nextId, MsgIdGenerator.nextRange, msgIdRange.nextId,
      ALLOC_SIZE, hf, if_true, Except.map]
    simp only [msgIdRange.isFull, decide_eq_true_eq, if_neg hne, Nat.add_zero,
      Nat.zero_add, Nat.mod_eq_of_lt hb']

/-- Closed form of the generator state and output after `j + 1` calls. -/
theorem nextIdIter_closed (gid : String) (times : Nat → Nat) :
    ∀ j : Nat, j < 2 ^ 50 →
      MsgIdGenerator.nextIdIter (NewMsgIdGenerator gid) times j =
        Except.ok
          ({ StartID := 1 + 1000 * (j / 1000), Len := 1000, ID := j + 1 },
            { generatorId := gid,
              nextStartId := 1 + 1000 * (j / 1000) + 1000,
              currRange := some
                { startId := 1 + 1000 * (j / 1000), len := 1000,
                  used := j % 1000 + 1, timestamp := times (1000 * (j / 1000)) } }) := by
  have hU : (1000 : Nat) * 2 ^ 50 + 3001 < U64 := by
    unfold U64
    norm_num
  intro j
  induction j with
  | zero =>
    intro hb
    show (MsgIdGenerator.nextId (NewMsgIdGenerator gid) (times 0)).map _ = _
    rw [nextId_eq_alloc (times 0) rfl (show (1 : Nat) < U64 by omega)]
    simp only [Except.map, NewMsgIdGenerator, ALLOC_SIZE]
    rw [show ((1 + 1000 : Nat) % U64) = 1001 from Nat.mod_eq_of_lt (by omega)]
  | succ j ih =>
    intro hb
    have hj : j < 2 ^ 50 := by omega
    show (MsgIdGenerator.nextIdIter (NewMsgIdGenerator gid) times j).bind _ = _
    rw [ih hj]
    show (MsgIdGenerator.nextId _ (times (j + 1))).map _ = _
    by_cases hmod : j % 1000 = 999
    · rw [nextId_eq_alloc (times (j + 1))
        (show (msgIdRange.isFull _) = true by simp [msgIdRange.isFull]; omega)
        (show (1 + 1000 * (j / 1000) + 1000 : Nat) < U64 by omega)]
      simp only [Except.map, ALLOC_SIZE]
      rw [show (1000 * ((j + 1) / 1000) : Nat) = j + 1 from by omega]
      rw [show (1 + 1000 * (j / 1000) + 1000 : Nat) = 1 + (j + 1) from by omega]
      rw [show ((1 + (j + 1) + 1000 : Nat) % U64) = 1 + (j + 1) + 1000 from
        Nat.mod_eq_of_lt (by omega)]
      rw [show ((j + 1) % 1000 : Nat) = 0 from by omega]
      rw [show (j + 1 + 1 : Nat) = 1 + (j + 1) from by omega]
    · rw [nextId_eq_of_not_full (times (j + 1))
        (show (j % 1000 + 1 : Nat) < 1000 by omega)
        (show (1 + 1000 * (j / 1000) + (j % 1000 + 1) : Nat) < U64 by omega)]
      simp only [Except.map]
      rw [show ((j + 1) / 1000 : Nat) = j / 1000 from by omega]
      rw [show ((j + 1) % 1000 : Nat) = j % 1000 + 1 from by omega]
      rw [show (1 + 1000 * (j / 1000) + (j % 1000 + 1) : Nat) = j + 1 + 1 from by omega]

/-- C8: the `k`-th call to `nextId` (for `1 ≤ k < 2^50`, any allocation
times) returns `id = k`, `start_id = 1 + 1000 * ((k - 1) / 1000)` and
`range_len = ALLOC_SIZE = 1000`: IDs are unique, contiguous from 1, and
equal `start_id + used`. -/
theorem msgIdGenerator_kth_id (gid : String) (times : Nat → Nat) (k : Nat)
    (hk : 1 ≤ k) (hbound : k < 2 ^ 50) :
    ∃ g', MsgIdGenerator.nextIdIter (NewMsgIdGenerator gid) times (k - 1) =
      Except.ok ({ StartID := 1 + 1000 * ((k - 1) / 1000), Len := 1000, ID := k }, g') := by
  have h := nextIdIter_closed gid times (k - 1) (by omega)
  rw [show k - 1 + 1 = k from by omega] at h
  exact ⟨_, h⟩

/-- Witness for C8 at `k = 2001`: the 2001st ID is 2001, in the third range
`[2001, 3001)`. -/
theorem msgIdGenerator_kth_id_witness :
    ∃ g', MsgIdGenerator.nextIdIter (NewMsgIdGenerator "w") (fun j => j) 2000 =
      Except.ok ({ StartID := 2001, Len := 1000, ID := 2001 }, g') :=
  msgIdGenerator_kth_id "w" (fun j => j) 2001 (by decide) (by decide)

/-! ### Claim C9 -/

theorem findKey_eq_none_of_count_zero {attrs : List KeyValue} {k : String}
    (h : keyCount attrs k = 0) : findKey attrs k = none := by
  rw [findKey, List.find?_eq_none]
  intro a ha
  have := List.countP_eq_zero.mp h a ha
  simpa using this

theorem hasKey_eq_false_of_count_zero {attrs : List KeyValue} {k : String}
    (h : keyCount attrs k = 0) : hasKey attrs k = false := by
  rw [hasKey]
  simp only [List.any_eq_false, decide_eq_true_eq]
  intro a ha
  have := List.countP_eq_zero.mp h a ha
  simpa using this

theorem extractGeneratorId_of_no_key :
    ∀ attrs : List KeyValue, (∀ a ∈ attrs, a.key ≠ RES_ATTR_GENERATOR_ID) →
      ExtractGeneratorId attrs = "" := by
  intro attrs
  induction attrs with
  | nil => intro h; rfl
  | cons a rest ih =>
    intro h
    have hk : a.key ≠ RES_ATTR_GENERATOR_ID := h a (by simp)
    simp only [ExtractGeneratorId, if_neg hk]
    exact ih fun b hb => h b (List.mem_cons_of_mem _ hb)

/-- `ExtractGeneratorId` agrees with the spec-side first-attribute reading
when the generator-ID key occurs at most once. -/
theorem extractGeneratorId_spec :
    ∀ attrs : List KeyValue, keyCount attrs RES_ATTR_GENERATOR_ID ≤ 1 →
      ExtractGeneratorId attrs =
        (match findKey attrs RES_ATTR_GENERATOR_ID with
         | some a =>
           match a.value with
           | some (AnyValue.str s) => s
           | _ => ""
         | none => "") := by
  intro attrs
  induction attrs with
  | nil => intro h1; rfl
  | cons a rest ih =>
    intro h1
    by_cases hk : a.key = RES_ATTR_GENERATOR_ID
    · have hfind : findKey (a :: rest) RES_ATTR_GENERATOR_ID = some a := by
        simp [findKey, List.find?_cons_of_pos, hk]
      rw [hfind]
      have hcount0 : keyCount rest RES_ATTR_GENERATOR_ID = 0 := by
        have h1' : List.countP (fun a => decide (a.key = RES_ATTR_GENERATOR_ID)) rest + 1 ≤ 1 := by
          simpa [keyCount, List.countP_cons, hk] using h1
        show List.countP (fun a => decide (a.key = RES_ATTR_GENERATOR_ID)) rest = 0
        omega
      rcases hv : a.value with _ | v
      · have hrest : ExtractGeneratorId rest = "" := by
          apply extractGeneratorId_of_no_key
          intro b hb
          have := List.countP_eq_zero.mp hcount0 b hb
          simpa using this
        simp [ExtractGeneratorId, hk, hv, hrest]
      · rcases v with s | i | _
        · simp [ExtractGeneratorId, hk, hv]
        · simp [ExtractGeneratorId, hk, hv]
        · simp [ExtractGeneratorId, hk, hv]
    · have hfind : findKey (a :: rest) RES_ATTR_GENERATOR_ID =
          findKey rest RES_ATTR_GENERATOR_ID := by
        simp [findKey, List.find?_cons_of_neg, hk]
      rw [hfind]
      have h1' : keyCount rest RES_ATTR_GENERATOR_ID ≤ 1 := by
        have := h1
        simp [keyCount, List.countP_cons, hk] at this
        show List.countP (fun a => decide (a.key = RES_ATTR_GENERATOR_ID)) rest ≤ 1
        omega
      simp only [ExtractGeneratorId, if_neg hk]
      exact ih h1'

/-- The extraction loop under well-formed attributes: the result triple reads
the first occurrence of each key (defaulting to the accumulator) and the flag
is true iff every not-yet-seen key is present. -/
theorem extractMsgIdLoop_spec :
    ∀ (attrs : List KeyValue) (m : MsgID) (hS hL hI : Bool),
      (∀ a ∈ attrs,
        (a.key = ELEM_ATTR_START_RANGE ∨ a.key = ELEM_ATTR_RANGE_LEN ∨
          a.key = ELEM_ATTR_MESSAGE_ID) → ∃ i, a.value = some (AnyValue.int i)) →
      keyCount attrs ELEM_ATTR_START_RANGE ≤ cond hS 0 1 →
      keyCount attrs ELEM_ATTR_RANGE_LEN ≤ cond hL 0 1 →
      keyCount attrs ELEM_ATTR_MESSAGE_ID ≤ cond hI 0 1 →
      extractMsgIdLoop attrs m hS hL hI =
        ({ StartID := ((attrInt attrs ELEM_ATTR_START_RANGE).map toUint64).getD m.StartID
           Len := ((attrInt attrs ELEM_ATTR_RANGE_LEN).map toUint64).getD m.Len
           ID := ((attrInt attrs ELEM_ATTR_MESSAGE_ID).map toUint64).getD m.ID },
         (hS || hasKey attrs ELEM_ATTR_START_RANGE) &&
           (hL || hasKey attrs ELEM_ATTR_RANGE_LEN) &&
           (hI || hasKey attrs ELEM_ATTR_MESSAGE_ID)) := by
  intro attrs
  induction attrs with
  | nil =>
    intro m hS hL hI hty hu1 hu2 hu3
    cases hS <;> cases hL <;> cases hI <;> rfl
  | cons a rest ih =>
    intro m hS hL hI hty hu1 hu2 hu3
    have htyr : ∀ b ∈ rest,
        (b.key = ELEM_ATTR_START_RANGE ∨ b.key = ELEM_ATTR_RANGE_LEN ∨
          b.key = ELEM_ATTR_MESSAGE_ID) → ∃ i, b.value = some (AnyValue.int i) :=
      fun b hb => hty b (List.mem_cons_of_mem _ hb)
    by_cases k1 : a.key = ELEM_ATTR_START_RANGE
    · have hk2 : ¬ a.key = ELEM_ATTR_RANGE_LEN := by rw [k1]; decide
      have hk3 : ¬ a.key = ELEM_ATTR_MESSAGE_ID := by rw [k1]; decide
      cases hS with
      | true =>
        have hpos : 1 ≤ keyCount (a :: rest) ELEM_ATTR_START_RANGE := by
          simp [keyCount, List.countP_cons, k1]
        have h0 : keyCount (a :: rest) ELEM_ATTR_START_RANGE ≤ 0 := hu1
        omega
      | false =>
        obtain ⟨i, hv⟩ := hty a (by simp) (Or.inl k1)
        have hgi : getIntValue a.value = some i := by rw [hv]; rfl
        have hstep1 : keyCount (a :: rest) ELEM_ATTR_START_RANGE = keyCount rest ELEM_ATTR_START_RANGE + 1 := by
          simp [keyCount, List.countP_cons, k1]
        have hcj1 : keyCount (a :: rest) ELEM_ATTR_START_RANGE ≤ 1 := hu1
        have hc1r : keyCount rest ELEM_ATTR_START_RANGE = 0 := by omega
        have hstep2 : keyCount (a :: rest) ELEM_ATTR_RANGE_LEN = keyCount rest ELEM_ATTR_RANGE_LEN := by
          simp [keyCount, List.countP_cons, hk2]
        have hc2 : keyCount rest ELEM_ATTR_RANGE_LEN ≤ cond hL 0 1 := hstep2 ▸ hu2
        have hstep3 : keyCount (a :: rest) ELEM_ATTR_MESSAGE_ID = keyCount rest ELEM_ATTR_MESSAGE_ID := by
          simp [keyCount, List.countP_cons, hk3]
        have hc3 : keyCount rest ELEM_ATTR_MESSAGE_ID ≤ cond hI 0 1 := hstep3 ▸ hu3
        have hfa1r : attrInt rest ELEM_ATTR_START_RANGE = none := by
          simp [attrInt, findKey_eq_none_of_count_zero hc1r]
        have hfa2 : attrInt (a :: rest) ELEM_ATTR_RANGE_LEN = attrInt rest ELEM_ATTR_RANGE_LEN := by
          simp [attrInt, findKey, List.find?_cons_of_neg, hk2]
        have hfa3 : attrInt (a :: rest) ELEM_ATTR_MESSAGE_ID = attrInt rest ELEM_ATTR_MESSAGE_ID := by
          simp [attrInt, findKey, List.find?_cons_of_neg, hk3]
        have hfk1 : findKey (a :: rest) ELEM_ATTR_START_RANGE = some a := by
          simp [findKey, List.find?_cons_of_pos, k1]
        have hfa1 : attrInt (a :: rest) ELEM_ATTR_START_RANGE = some i := by
          simp [attrInt, hfk1, hgi]
        have hh1 : hasKey (a :: rest) ELEM_ATTR_START_RANGE = true := by
          simp [hasKey, k1]
        have hh2 : hasKey (a :: rest) ELEM_ATTR_RANGE_LEN = hasKey rest ELEM_ATTR_RANGE_LEN := by
          simp [hasKey, hk2]
        have hh3 : hasKey (a :: rest) ELEM_ATTR_MESSAGE_ID = hasKey rest ELEM_ATTR_MESSAGE_ID := by
          simp [hasKey, hk3]
        simp only [extractMsgIdLoop, if_pos k1, hgi]
        by_cases hall : (hI && hL && true) = true
        · rw [if_pos hall]
          simp only [Bool.and_true, Bool.and_eq_true] at hall
          obtain ⟨hi', hl'⟩ := hall
          subst hi'
          subst hl'
          have hc2z : keyCount (a :: rest) ELEM_ATTR_RANGE_LEN = 0 := by
            have h' : keyCount (a :: rest) ELEM_ATTR_RANGE_LEN ≤ 0 := hu2
            omega
          have hc3z : keyCount (a :: rest) ELEM_ATTR_MESSAGE_ID = 0 := by
            have h' : keyCount (a :: rest) ELEM_ATTR_MESSAGE_ID ≤ 0 := hu3
            omega
          simp [attrInt, hfk1, hgi, hh1,
            findKey_eq_none_of_count_zero hc2z,
            findKey_eq_none_of_count_zero hc3z]
        · rw [if_neg hall]
          rw [ih { m with StartID := toUint64 i } true hL hI htyr
            (Nat.le_of_eq hc1r) hc2 hc3]
          simp [hfa1, hfa2, hfa3, hfa1r, hh1, hh2, hh3]
    · by_cases k2 : a.key = ELEM_ATTR_RANGE_LEN
      · have hk3 : ¬ a.key = ELEM_ATTR_MESSAGE_ID := by rw [k2]; decide
        cases hL with
        | true =>
          have hpos : 1 ≤ keyCount (a :: rest) ELEM_ATTR_RANGE_LEN := by
            simp [keyCount, List.countP_cons, k2]
          have h0 : keyCount (a :: rest) ELEM_ATTR_RANGE_LEN ≤ 0 := hu2
          omega
        | false =>
          obtain ⟨i, hv⟩ := hty a (by simp) (Or.inr (Or.inl k2))
          have hgi : getIntValue a.value = some i := by rw [hv]; rfl
          have hstep2 : keyCount (a :: rest) ELEM_ATTR_RANGE_LEN = keyCount rest ELEM_ATTR_RANGE_LEN + 1 := by
            simp [keyCount, List.countP_cons, k2]
          have hcj1 : keyCount (a :: rest) ELEM_ATTR_RANGE_LEN ≤ 1 := hu2
          have hc2r : keyCount rest ELEM_ATTR_RANGE_LEN = 0 := by omega
          have hstep1 : keyCount (a :: rest) ELEM_ATTR_START_RANGE = keyCount rest ELEM_ATTR_START_RANGE := by
            simp [keyCount, List.countP_cons, k1]
          have hc1 : keyCount rest ELEM_ATTR_START_RANGE ≤ cond hS 0 1 := hstep1 ▸ hu1
          have hstep3 : keyCount (a :: rest) ELEM_ATTR_MESSAGE_ID = keyCount rest ELEM_ATTR_MESSAGE_ID := by
            simp [keyCount, List.countP_cons, hk3]
          have hc3 : keyCount rest ELEM_ATTR_MESSAGE_ID ≤ cond hI 0 1 := hstep3 ▸ hu3
          have hfa2r : attrInt rest ELEM_ATTR_RANGE_LEN = none := by
            simp [attrInt, findKey_eq_none_of_count_zero hc2r]
          have hfa1 : attrInt (a :: rest) ELEM_ATTR_START_RANGE = attrInt rest ELEM_ATTR_START_RANGE := by
            simp [attrInt, findKey, List.find?_cons_of_neg, k1]
          have hfa3 : attrInt (a :: rest) ELEM_ATTR_MESSAGE_ID = attrInt rest ELEM_ATTR_MESSAGE_ID := by
            simp [attrInt, findKey, List.find?_cons_of_neg, hk3]
          have hfk2 : findKey (a :: rest) ELEM_ATTR_RANGE_LEN = some a := by
            simp [findKey, List.find?_cons_of_pos, k2]
          have hfa2 : attrInt (a :: rest) ELEM_ATTR_RANGE_LEN = some i := by
            simp [attrInt, hfk2, hgi]
          have hh2 : hasKey (a :: rest) ELEM_ATTR_RANGE_LEN = true := by
            simp [hasKey, k2]
          have hh1 : hasKey (a :: rest) ELEM_ATTR_START_RANGE = hasKey rest ELEM_ATTR_START_RANGE := by
            simp [hasKey, k1]
          have hh3 : hasKey (a :: rest) ELEM_ATTR_MESSAGE_ID = hasKey rest ELEM_ATTR_MESSAGE_ID := by
            simp [hasKey, hk3]
          simp only [extractMsgIdLoop, if_neg k1, if_pos k2, hgi]
          by_cases hall : (hI && true && hS) = true
          · rw [if_pos hall]
            simp only [Bool.and_true, Bool.true_and, Bool.and_eq_true] at hall
            obtain ⟨hi', hs'⟩ := hall
            subst hi'
            subst hs'
            have hc1z : keyCount (a :: rest) ELEM_ATTR_START_RANGE = 0 := by
              have h' : keyCount (a :: rest) ELEM_ATTR_START_RANGE ≤ 0 := hu1
              omega
            have hc3z : keyCount (a :: rest) ELEM_ATTR_MESSAGE_ID = 0 := by
              have h' : keyCount (a :: rest) ELEM_ATTR_MESSAGE_ID ≤ 0 := hu3
              omega
            simp [attrInt, hfk2, hgi, hh2,
              findKey_eq_none_of_count_zero hc1z,
              findKey_eq_none_of_count_zero hc3z]
          · rw [if_neg hall]
            rw [ih { m with Len := toUint64 i } hS true hI htyr
              hc1 (Nat.le_of_eq hc2r) hc3]
            simp [hfa1, hfa2, hfa3, hfa2r, hh1, hh2, hh3]
      · by_cases k3 : a.key = ELEM_ATTR_MESSAGE_ID
        · cases hI with
          | true =>
            have hpos : 1 ≤ keyCount (a :: rest) ELEM_ATTR_MESSAGE_ID := by
              simp [keyCount, List.countP_cons, k3]
            have h0 : keyCount (a :: rest) ELEM_ATTR_MESSAGE_ID ≤ 0 := hu3
            omega
          | false =>
            obtain ⟨i, hv⟩ := hty a (by simp) (Or.inr (Or.inr k3))
            have hgi : getIntValue a.value = some i := by rw [hv]; rfl
            have hstep3 : keyCount (a :: rest) ELEM_ATTR_MESSAGE_ID = keyCount rest ELEM_ATTR_MESSAGE_ID + 1 := by
              simp [keyCount, List.countP_cons, k3]
            have hcj1 : keyCount (a :: rest) ELEM_ATTR_MESSAGE_ID ≤ 1 := hu3
            have hc3r : keyCount rest ELEM_ATTR_MESSAGE_ID = 0 := by omega
            have hstep1 : keyCount (a :: rest) ELEM_ATTR_START_RANGE = keyCount rest ELEM_ATTR_START_RANGE := by
              simp [keyCount, List.countP_cons, k1]
            have hc1 : keyCount rest ELEM_ATTR_START_RANGE ≤ cond hS 0 1 := hstep1 ▸ hu1
            have hstep2 : keyCount (a :: rest) ELEM_ATTR_RANGE_LEN = keyCount rest ELEM_ATTR_RANGE_LEN := by
              simp [keyCount, List.countP_cons, k2]
            have hc2 : keyCount rest ELEM_ATTR_RANGE_LEN ≤ cond hL 0 1 := hstep2 ▸ hu2
            have hfa3r : attrInt rest ELEM_ATTR_MESSAGE_ID = none := by
              simp [attrInt, findKey_eq_none_of_count_zero hc3r]
            have hfa1 : attrInt (a :: rest) ELEM_ATTR_START_RANGE = attrInt rest ELEM_ATTR_START_RANGE := by
              simp [attrInt, findKey, List.find?_cons_of_neg, k1]
            have hfa2 : attrInt (a :: rest) ELEM_ATTR_RANGE_LEN = attrInt rest ELEM_ATTR_RANGE_LEN := by
              simp [attrInt, findKey, List.find?_cons_of_neg, k2]
            have hfk3 : findKey (a :: rest) ELEM_ATTR_MESSAGE_ID = some a := by
              simp [findKey, List.find?_cons_of_pos, k3]
            have hfa3 : attrInt (a :: rest) ELEM_ATTR_MESSAGE_ID = some i := by
              simp [attrInt, hfk3, hgi]
            have hh3 : hasKey (a :: rest) ELEM_ATTR_MESSAGE_ID = true := by
              simp [hasKey, k3]
            have hh1 : hasKey (a :: rest) ELEM_ATTR_START_RANGE = hasKey rest ELEM_ATTR_START_RANGE := by
              simp [hasKey, k1]
            have hh2 : hasKey (a :: rest) ELEM_ATTR_RANGE_LEN = hasKey rest ELEM_ATTR_RANGE_LEN := by
              simp [hasKey, k2]
            simp only [extractMsgIdLoop, if_neg k1, if_neg k2, if_pos k3, hgi]
            by_cases hall : (true && hL && hS) = true
            · rw [if_pos hall]
              simp only [Bool.true_and, Bool.and_eq_true] at hall
              obtain ⟨hl', hs'⟩ := hall
              subst hl'
              subst hs'
              have hc1z : keyCount (a :: rest) ELEM_ATTR_START_RANGE = 0 := by
                have h' : keyCount (a :: rest) ELEM_ATTR_START_RANGE ≤ 0 := hu1
                omega
              have hc2z : keyCount (a :: rest) ELEM_ATTR_RANGE_LEN = 0 := by
                have h' : keyCount (a :: rest) ELEM_ATTR_RANGE_LEN ≤ 0 := hu2
                omega
              simp [attrInt, hfk3, hgi, hh3,
                findKey_eq_none_of_count_zero hc1z,
                findKey_eq_none_of_count_zero hc2z]
            · rw [if_neg hall]
              rw [ih { m with ID := toUint64 i } hS hL true htyr
                hc1 hc2 (Nat.le_of_eq hc3r)]
              simp [hfa1, hfa2, hfa3, hfa3r, hh1, hh2, hh3]
        · have hstep1 : keyCount (a :: rest) ELEM_ATTR_START_RANGE =
              keyCount rest ELEM_ATTR_START_RANGE := by
            simp [keyCount, List.countP_cons, k1]
          have hstep2 : keyCount (a :: rest) ELEM_ATTR_RANGE_LEN =
              keyCount rest ELEM_ATTR_RANGE_LEN := by
            simp [keyCount, List.countP_cons, k2]
          have hstep3 : keyCount (a :: rest) ELEM_ATTR_MESSAGE_ID =
              keyCount rest ELEM_ATTR_MESSAGE_ID := by
            simp [keyCount, List.countP_cons, k3]
          have hc1 : keyCount rest ELEM_ATTR_START_RANGE ≤ cond hS 0 1 := hstep1 ▸ hu1
          have hc2 : keyCount rest ELEM_ATTR_RANGE_LEN ≤ cond hL 0 1 := hstep2 ▸ hu2
          have hc3 : keyCount rest ELEM_ATTR_MESSAGE_ID ≤ cond hI 0 1 := hstep3 ▸ hu3
          have hfa1 : attrInt (a :: rest) ELEM_ATTR_START_RANGE =
              attrInt rest ELEM_ATTR_START_RANGE := by
            simp [attrInt, findKey, List.find?_cons_of_neg, k1]
          have hfa2 : attrInt (a :: rest) ELEM_ATTR_RANGE_LEN =
              attrInt rest ELEM_ATTR_RANGE_LEN := by
            simp [attrInt, findKey, List.find?_cons_of_neg, k2]
          have hfa3 : attrInt (a :: rest) ELEM_ATTR_MESSAGE_ID =
              attrInt rest ELEM_ATTR_MESSAGE_ID := by
            simp [attrInt, findKey, List.find?_cons_of_neg, k3]
          have hh1 : hasKey (a :: rest) ELEM_ATTR_START_RANGE =
              hasKey rest ELEM_ATTR_START_RANGE := by
            simp [hasKey, k1]
          have hh2 : hasKey (a :: rest) ELEM_ATTR_RANGE_LEN =
              hasKey rest ELEM_ATTR_RANGE_LEN := by
            simp [hasKey, k2]
          have hh3 : hasKey (a :: rest) ELEM_ATTR_MESSAGE_ID =
              hasKey rest ELEM_ATTR_MESSAGE_ID := by
            simp [hasKey, k3]
          simp only [extractMsgIdLoop, if_neg k1, if_neg k2, if_neg k3]
          by_cases hall : (hI && hL && hS) = true
          · rw [if_pos hall]
            simp only [Bool.and_eq_true] at hall
            obtain ⟨⟨hi', hl'⟩, hs'⟩ := hall
            subst hi'
            subst hl'
            subst hs'
            have hc1z : keyCount (a :: rest) ELEM_ATTR_START_RANGE = 0 := by
              have h' : keyCount (a :: rest) ELEM_ATTR_START_RANGE ≤ 0 := hu1
              omega
            have hc2z : keyCount (a :: rest) ELEM_ATTR_RANGE_LEN = 0 := by
              have h' : keyCount (a :: rest) ELEM_ATTR_RANGE_LEN ≤ 0 := hu2
              omega
            have hc3z : keyCount (a :: rest) ELEM_ATTR_MESSAGE_ID = 0 := by
              have h' : keyCount (a :: rest) ELEM_ATTR_MESSAGE_ID ≤ 0 := hu3
              omega
            simp [attrInt, findKey_eq_none_of_count_zero hc1z,
              findKey_eq_none_of_count_zero hc2z,
              findKey_eq_none_of_count_zero hc3z]
          · rw [if_neg hall]
            rw [ih m hS hL hI htyr hc1 hc2 hc3]
            simp [hfa1, hfa2, hfa3, hh1, hh2, hh3]


theorem keyCount_ne_zero_of_mem {attrs : List KeyValue} {b : KeyValue} {k : String}
    (hb : b ∈ attrs) (hk : b.key = k) : keyCount attrs k ≠ 0 := by
  intro h0
  have := List.countP_eq_zero.mp h0 b hb
  simp [hk] at this

/-- The extraction loop returns `false` whenever some attribute carries a
message-ID key with a non-integer (or nil) value and each message-ID key not
yet seen occurs at most once: the loop early-returns on the wrong-typed
attribute before it can break with all three flags set. -/
theorem extractMsgIdLoop_false_of_wrong_typed :
    ∀ (attrs : List KeyValue) (m : MsgID) (hS hL hI : Bool),
      (∃ b ∈ attrs,
        (b.key = ELEM_ATTR_START_RANGE ∨ b.key = ELEM_ATTR_RANGE_LEN ∨
          b.key = ELEM_ATTR_MESSAGE_ID) ∧ getIntValue b.value = none) →
      keyCount attrs ELEM_ATTR_START_RANGE ≤ cond hS 0 1 →
      keyCount attrs ELEM_ATTR_RANGE_LEN ≤ cond hL 0 1 →
      keyCount attrs ELEM_ATTR_MESSAGE_ID ≤ cond hI 0 1 →
      (extractMsgIdLoop attrs m hS hL hI).2 = false := by
  intro attrs
  induction attrs with
  | nil =>
    intro m hS hL hI hex hu1 hu2 hu3
    obtain ⟨b, hb, _⟩ := hex
    exact absurd hb (by simp)
  | cons a rest ih =>
    intro m hS hL hI hex hu1 hu2 hu3
    obtain ⟨b, hb, hbk, hbv⟩ := hex
    by_cases k1 : a.key = ELEM_ATTR_START_RANGE
    · have hk2 : ¬ a.key = ELEM_ATTR_RANGE_LEN := by rw [k1]; decide
      have hk3 : ¬ a.key = ELEM_ATTR_MESSAGE_ID := by rw [k1]; decide
      cases hgv : getIntValue a.value with
      | none =>
        simp [extractMsgIdLoop, if_pos k1, hgv]
      | some v =>
        have hbr : b ∈ rest := by
          rcases List.mem_cons.mp hb with rfl | hbr
          · rw [hbv] at hgv
            exact absurd hgv (by simp)
          · exact hbr
        cases hS with
        | true =>
          have hpos : 1 ≤ keyCount (a :: rest) ELEM_ATTR_START_RANGE := by
            simp [keyCount, List.countP_cons, k1]
          have h0 : keyCount (a :: rest) ELEM_ATTR_START_RANGE ≤ 0 := hu1
          omega
        | false =>
          have hstep1 : keyCount (a :: rest) ELEM_ATTR_START_RANGE = keyCount rest ELEM_ATTR_START_RANGE + 1 := by
            simp [keyCount, List.countP_cons, k1]
          have hcj1 : keyCount (a :: rest) ELEM_ATTR_START_RANGE ≤ 1 := hu1
          have hc1r : keyCount rest ELEM_ATTR_START_RANGE = 0 := by omega
          have hstep2 : keyCount (a :: rest) ELEM_ATTR_RANGE_LEN = keyCount rest ELEM_ATTR_RANGE_LEN := by
            simp [keyCount, List.countP_cons, hk2]
          have hstep3 : keyCount (a :: rest) ELEM_ATTR_MESSAGE_ID = keyCount rest ELEM_ATTR_MESSAGE_ID := by
            simp [keyCount, List.countP_cons, hk3]
          simp only [extractMsgIdLoop, if_pos k1, hgv]
          by_cases hall : (hI && hL && true) = true
          · exfalso
            simp only [Bool.and_true, Bool.and_eq_true] at hall
            obtain ⟨hi', hl'⟩ := hall
            subst hi'
            subst hl'
            have h2z : keyCount (a :: rest) ELEM_ATTR_RANGE_LEN ≤ 0 := hu2
            have h3z : keyCount (a :: rest) ELEM_ATTR_MESSAGE_ID ≤ 0 := hu3
            rcases hbk with hx | hx | hx <;>
              exact keyCount_ne_zero_of_mem hbr hx (by omega)
          · rw [if_neg hall]
            exact ih { m with StartID := toUint64 v } true hL hI
              ⟨b, hbr, hbk, hbv⟩ (Nat.le_of_eq hc1r) (hstep2 ▸ hu2) (hstep3 ▸ hu3)
    · by_cases k2 : a.key = ELEM_ATTR_RANGE_LEN
      · have hk3 : ¬ a.key = ELEM_ATTR_MESSAGE_ID := by rw [k2]; decide
        cases hgv : getIntValue a.value with
        | none =>
          simp [extractMsgIdLoop, if_neg k1, if_pos k2, hgv]
        | some v =>
          have hbr : b ∈ rest := by
            rcases List.mem_cons.mp hb with rfl | hbr
            · rw [hbv] at hgv
              exact absurd hgv (by simp)
            · exact hbr
          cases hL with
          | true =>
            have hpos : 1 ≤ keyCount (a :: rest) ELEM_ATTR_RANGE_LEN := by
              simp [keyCount, List.countP_cons, k2]
            have h0 : keyCount (a :: rest) ELEM_ATTR_RANGE_LEN ≤ 0 := hu2
            omega
          | false =>
            have hstep2 : keyCount (a :: rest) ELEM_ATTR_RANGE_LEN = keyCount rest ELEM_ATTR_RANGE_LEN + 1 := by
              simp [keyCount, List.countP_cons, k2]
            have hcj1 : keyCount (a :: rest) ELEM_ATTR_RANGE_LEN ≤ 1 := hu2
            have hc2r : keyCount rest ELEM_ATTR_RANGE_LEN = 0 := by omega
            have hstep1 : keyCount (a :: rest) ELEM_ATTR_START_RANGE = keyCount rest ELEM_ATTR_START_RANGE := by
              simp [keyCount, List.countP_cons, k1]
            have hstep3 : keyCount (a :: rest) ELEM_ATTR_MESSAGE_ID = keyCount rest ELEM_ATTR_MESSAGE_ID := by
              simp [keyCount, List.countP_cons, hk3]
            simp only [extractMsgIdLoop, if_neg k1, if_pos k2, hgv]
            by_cases hall : (hI && true && hS) = true
            · exfalso
              simp only [Bool.and_true, Bool.true_and, Bool.and_eq_true] at hall
              obtain ⟨hi', hs'⟩ := hall
              subst hi'
              subst hs'
              have h1z : keyCount (a :: rest) ELEM_ATTR_START_RANGE ≤ 0 := hu1
              have h3z : keyCount (a :: rest) ELEM_ATTR_MESSAGE_ID ≤ 0 := hu3
              rcases hbk with hx | hx | hx <;>
                exact keyCount_ne_zero_of_mem hbr hx (by omega)
            · rw [if_neg hall]
              exact ih { m with Len := toUint64 v } hS true hI
                ⟨b, hbr, hbk, hbv⟩ (hstep1 ▸ hu1) (Nat.le_of_eq hc2r) (hstep3 ▸ hu3)
      · by_cases k3 : a.key = ELEM_ATTR_MESSAGE_ID
        · cases hgv : getIntValue a.value with
          | none =>
            simp [extractMsgIdLoop, if_neg k1, if_neg k2, if_pos k3, hgv]
          | some v =>
            have hbr : b ∈ rest := by
              rcases List.mem_cons.mp hb with rfl | hbr
              · rw [hbv] at hgv
                exact absurd hgv (by simp)
              · exact hbr
            cases hI with
            | true =>
              have hpos : 1 ≤ keyCount (a :: rest) ELEM_ATTR_MESSAGE_ID := by
                simp [keyCount, List.countP_cons, k3]
              have h0 : keyCount (a :: rest) ELEM_ATTR_MESSAGE_ID ≤ 0 := hu3
              omega
            | false =>
              have hstep3 : keyCount (a :: rest) ELEM_ATTR_MESSAGE_ID = keyCount rest ELEM_ATTR_MESSAGE_ID + 1 := by
                simp [keyCount, List.countP_cons, k3]
              have hcj1 : keyCount (a :: rest) ELEM_ATTR_MESSAGE_ID ≤ 1 := hu3
              have hc3r : keyCount rest ELEM_ATTR_MESSAGE_ID = 0 := by omega
              have hstep1 : keyCount (a :: rest) ELEM_ATTR_START_RANGE = keyCount rest ELEM_ATTR_START_RANGE := by
                simp [keyCount, List.countP_cons, k1]
              have hstep2 : keyCount (a :: rest) ELEM_ATTR_RANGE_LEN = keyCount rest ELEM_ATTR_RANGE_LEN := by
                simp [keyCount, List.countP_cons, k2]
              simp only [extractMsgIdLoop, if_neg k1, if_neg k2, if_pos k3, hgv]
              by_cases hall : (true && hL && hS) = true
              · exfalso
                simp only [Bool.true_and, Bool.and_eq_true] at hall
                obtain ⟨hl', hs'⟩ := hall
                subst hl'
                subst hs'
                have h1z : keyCount (a :: rest) ELEM_ATTR_START_RANGE ≤ 0 := hu1
                have h2z : keyCount (a :: rest) ELEM_ATTR_RANGE_LEN ≤ 0 := hu2
                rcases hbk with hx | hx | hx <;>
                  exact keyCount_ne_zero_of_mem hbr hx (by omega)
              · rw [if_neg hall]
                exact ih { m with ID := toUint64 v } hS hL true
                  ⟨b, hbr, hbk, hbv⟩ (hstep1 ▸ hu1) (hstep2 ▸ hu2) (Nat.le_of_eq hc3r)
        · have hbr : b ∈ rest := by
            rcases List.mem_cons.mp hb with rfl | hbr
            · rcases hbk with hx | hx | hx
              · exact absurd hx k1
              · exact absurd hx k2
              · exact absurd hx k3
            · exact hbr
          have hstep1 : keyCount (a :: rest) ELEM_ATTR_START_RANGE =
              keyCount rest ELEM_ATTR_START_RANGE := by
            simp [keyCount, List.countP_cons, k1]
          have hstep2 : keyCount (a :: rest) ELEM_ATTR_RANGE_LEN =
              keyCount rest ELEM_ATTR_RANGE_LEN := by
            simp [keyCount, List.countP_cons, k2]
          have hstep3 : keyCount (a :: rest) ELEM_ATTR_MESSAGE_ID =
              keyCount rest ELEM_ATTR_MESSAGE_ID := by
            simp [keyCount, List.countP_cons, k3]
          simp only [extractMsgIdLoop, if_neg k1, if_neg k2, if_neg k3]
          by_cases hall : (hI && hL && hS) = true
          · exfalso
            simp only [Bool.and_eq_true] at hall
            obtain ⟨⟨hi', hl'⟩, hs'⟩ := hall
            subst hi'
            subst hl'
            subst hs'
            have h1z : keyCount (a :: rest) ELEM_ATTR_START_RANGE ≤ 0 := hu1
            have h2z : keyCount (a :: rest) ELEM_ATTR_RANGE_LEN ≤ 0 := hu2
            have h3z : keyCount (a :: rest) ELEM_ATTR_MESSAGE_ID ≤ 0 := hu3
            rcases hbk with hx | hx | hx <;>
              exact keyCount_ne_zero_of_mem hbr hx (by omega)
          · rw [if_neg hall]
            exact ih m hS hL hI ⟨b, hbr, hbk, hbv⟩ (hstep1 ▸ hu1) (hstep2 ▸ hu2)
              (hstep3 ▸ hu3)

/-- `ExtractMsgIdParams` on a span whose message-ID keys occur at most once:
the returned flag equals the spec-side qualification (all three keys present
with integer-typed values), and on a qualifying span the returned triple is
the spec-side one.  A wrong-typed or missing message-ID attribute yields
`false`. -/
theorem extractMsgIdParams_spec (span : Sink.Span) (h : span.AttrsWF) :
    (ExtractMsgIdParams span.attributes).2 = span.hasMsgIdTriple ∧
    (span.hasMsgIdTriple = true →
      (ExtractMsgIdParams span.attributes).1 = span.specMsgId) := by
  obtain ⟨hu1, hu2, hu3⟩ := h
  by_cases hty : ∀ a ∈ span.attributes,
      (a.key = ELEM_ATTR_START_RANGE ∨ a.key = ELEM_ATTR_RANGE_LEN ∨
        a.key = ELEM_ATTR_MESSAGE_ID) → ∃ i, a.value = some (AnyValue.int i)
  · have hloop := extractMsgIdLoop_spec span.attributes { StartID := 0, Len := 0, ID := 0 }
      false false false hty hu1 hu2 hu3
    have htyped : span.msgAttrsTyped = true := by
      rw [Sink.Span.msgAttrsTyped, List.all_eq_true]
      intro a ha
      by_cases hk : a.key = ELEM_ATTR_START_RANGE ∨ a.key = ELEM_ATTR_RANGE_LEN ∨
          a.key = ELEM_ATTR_MESSAGE_ID
      · obtain ⟨i, hv⟩ := hty a ha hk
        simp [hv, getIntValue]
      · simp [hk]
    constructor
    · rw [ExtractMsgIdParams, hloop]
      simp [Sink.Span.hasMsgIdTriple, htyped, Bool.false_or, Bool.true_and]
    · intro htr
      rw [ExtractMsgIdParams, hloop]
      simp [Sink.Span.specMsgId]
  · push_neg at hty
    obtain ⟨a, ha, hk, hnv⟩ := hty
    have hgn : getIntValue a.value = none := by
      rcases hva : a.value with _ | v
      · simp [hva, getIntValue]
      · rcases v with s | i | _
        · simp [hva, getIntValue]
        · exact absurd hva (hnv i)
        · simp [hva, getIntValue]
    have hflag := extractMsgIdLoop_false_of_wrong_typed span.attributes
      { StartID := 0, Len := 0, ID := 0 } false false false ⟨a, ha, hk, hgn⟩ hu1 hu2 hu3
    have htyped : span.msgAttrsTyped = false := by
      apply Bool.eq_false_iff.mpr
      intro hall
      rw [Sink.Span.msgAttrsTyped, List.all_eq_true] at hall
      have := hall a ha
      simp [hk, hgn] at this
    constructor
    · rw [ExtractMsgIdParams, hflag]
      simp [Sink.Span.hasMsgIdTriple, htyped]
    · intro htr
      rw [Sink.Span.hasMsgIdTriple, htyped] at htr
      simp at htr

end Worker

theorem flatMap_congr_of_mem {A B : Type} {l : List A} {f g : A → List B}
    (h : ∀ a ∈ l, f a = g a) : l.flatMap f = l.flatMap g := by
  induction l with
  | nil => rfl
  | cons a rest ih =>
    rw [List.flatMap_cons, List.flatMap_cons, h a (by simp),
      ih fun b hb => h b (List.mem_cons_of_mem _ hb)]

namespace Sink

open Worker

/-- On a list of well-formed spans, the Export inner `filterMap` equals
filtering the qualifying spans and pairing them with the generator ID. -/
theorem spans_filterMap_spec (genID : String) :
    ∀ spans : List Span, (∀ span ∈ spans, span.AttrsWF) →
      (spans.filterMap fun span =>
        let e := ExtractMsgIdParams span.attributes
        if e.2 then some (genID, e.1) else none) =
      ((spans.filter fun span => span.hasMsgIdTriple).map fun span =>
        (genID, span.specMsgId)) := by
  intro spans
  induction spans with
  | nil => intro h; rfl
  | cons sp rest ih =>
    intro h
    obtain ⟨hflag, htrip⟩ := extractMsgIdParams_spec sp (h sp (by simp))
    have hr := ih fun b hb => h b (List.mem_cons_of_mem _ hb)
    cases htr : sp.hasMsgIdTriple with
    | true =>
      have h1 : (ExtractMsgIdParams sp.attributes).2 = true := by rw [hflag, htr]
      have h2 := htrip htr
      simp [List.filterMap_cons, List.filter_cons, h1, h2, htr, hr]
    | false =>
      have h1 : (ExtractMsgIdParams sp.attributes).2 = false := by rw [hflag, htr]
      simp [List.filterMap_cons, List.filter_cons, h1, htr, hr]

/-- One resource-spans entry of Export, rewritten to its spec-side form. -/
theorem resourceSpans_entry_spec (rs : ResourceSpans)
    (hres : ∀ res, rs.resource = some res →
      keyCount res.attributes RES_ATTR_GENERATOR_ID ≤ 1)
    (hspan : ∀ ss ∈ rs.scopeSpans, ∀ span ∈ ss.spans, span.AttrsWF) :
    (match rs.resource with
     | none => ([] : List (String × MsgID))
     | some res =>
       let genID := ExtractGeneratorId res.attributes
       if genID = "" then []
       else
         rs.scopeSpans.flatMap fun (ss : ScopeSpans) =>
           ss.spans.filterMap fun (span : Span) =>
             let e := ExtractMsgIdParams span.attributes
             if e.2 then some (genID, e.1) else none) =
    (match rs.resource with
     | none => ([] : List (String × MsgID))
     | some res =>
       if res.specGenId = "" then []
       else
         rs.scopeSpans.flatMap fun ss =>
           (ss.spans.filter fun span => span.hasMsgIdTriple).map fun span =>
             (res.specGenId, span.specMsgId)) := by
  cases hr : rs.resource with
  | none => rfl
  | some res =>
    have hg : ExtractGeneratorId res.attributes = res.specGenId :=
      extractGeneratorId_spec res.attributes (hres res hr)
    simp only [hg]
    by_cases hz : res.specGenId = ""
    · rw [if_pos hz, if_pos hz]
    · rw [if_neg hz, if_neg hz]
      apply flatMap_congr_of_mem
      intro ss hss
      exact spans_filterMap_spec res.specGenId ss.spans
        fun span hsp => hspan ss hss span hsp

/-- C9: for every incoming `ExportTraceServiceRequest` whose resources carry
the generator-ID key at most once and whose spans carry each message-ID key
at most once (values of any type, or none), `Export` invokes `Tracker.Ack`
exactly once per span that lies under a resource with a non-empty generator
ID and that carries all three message-ID attributes with integer-typed
values — with that generator ID and the span's extracted triple, in order —
and skips every other span (missing or wrong-typed message-ID attributes
alike) without acking and without error, returning the empty response. -/
theorem sink_export_acks_spec (request : ExportTraceServiceRequest)
    (hres : ∀ rs ∈ request.resourceSpans, ∀ res, rs.resource = some res →
      keyCount res.attributes RES_ATTR_GENERATOR_ID ≤ 1)
    (hspan : ∀ rs ∈ request.resourceSpans, ∀ ss ∈ rs.scopeSpans,
      ∀ span ∈ ss.spans, span.AttrsWF) :
    Export request = (specExportAcks request, ({} : ExportTraceServiceResponse)) := by
  rw [Export, specExportAcks]
  refine congrArg (fun x => (x, ({} : ExportTraceServiceResponse))) ?_
  apply flatMap_congr_of_mem
  intro rs hrs
  exact resourceSpans_entry_spec rs (hres rs hrs) (hspan rs hrs)

/-- Witness: a request with one resource carrying generator ID `"g1"` and
three spans — one with the full integer triple, one with no attributes at
all, and one whose start-range attribute is wrong-typed (a string); Export
acks exactly the first, qualifying span. -/
theorem sink_export_acks_spec_witness :
    Export
      { resourceSpans := [
          { resource := some
              { attributes := [⟨RES_ATTR_GENERATOR_ID, some (AnyValue.str "g1")⟩] }
            scopeSpans := [
              { spans := [
                  { attributes := [
                      ⟨ELEM_ATTR_START_RANGE, some (AnyValue.int 1)⟩,
                      ⟨ELEM_ATTR_RANGE_LEN, some (AnyValue.int 1000)⟩,
                      ⟨ELEM_ATTR_MESSAGE_ID, some (AnyValue.int 5)⟩] },
                  { attributes := [] },
                  { attributes := [
                      ⟨ELEM_ATTR_START_RANGE, some (AnyValue.str "oops")⟩,
                      ⟨ELEM_ATTR_RANGE_LEN, some (AnyValue.int 7)⟩,
                      ⟨ELEM_ATTR_MESSAGE_ID, some (AnyValue.int 8)⟩] }] }] }] } =
      (specExportAcks
        { resourceSpans := [
            { resource := some
                { attributes := [⟨RES_ATTR_GENERATOR_ID, some (AnyValue.str "g1")⟩] }
              scopeSpans := [
                { spans := [
                    { attributes := [
                        ⟨ELEM_ATTR_START_RANGE, some (AnyValue.int 1)⟩,
                        ⟨ELEM_ATTR_RANGE_LEN, some (AnyValue.int 1000)⟩,
                        ⟨ELEM_ATTR_MESSAGE_ID, some (AnyValue.int 5)⟩] },
                    { attributes := [] },
                    { attributes := [
                        ⟨ELEM_ATTR_START_RANGE, some (AnyValue.str "oops")⟩,
                        ⟨ELEM_ATTR_RANGE_LEN, some (AnyValue.int 7)⟩,
                        ⟨ELEM_ATTR_MESSAGE_ID, some (AnyValue.int 8)⟩] }] }] }] },
        ({} : ExportTraceServiceResponse)) :=
  sink_export_acks_spec _
    (by
      intro rs hrs res hres
      simp only [List.mem_singleton] at hrs
      subst hrs
      simp only [Option.some.injEq] at hres
      subst hres
      decide)
    (by
      intro rs hrs ss hss span hsp
      simp only [List.mem_singleton] at hrs
      subst hrs
      simp only [List.mem_singleton] at hss
      subst hss
      simp only [List.mem_cons, List.not_mem_nil, or_false] at hsp
      rcases hsp with rfl | rfl | rfl
      · exact ⟨by decide, by decide, by decide⟩
      · exact ⟨by decide, by decide, by decide⟩
      · exact ⟨by decide, by decide, by decide⟩)

end Sink

end OtelLoadgen
